import Mathlib

/-!
# Verification of the P_VolumeAnalysis voxel visibility analyser

A shallow embedding of the P_VolumeAnalysis Unreal plugin (the final
`FS_LinkedBox` / long-trace row-scan evolution of the code base) together
with proofs and refutations of the frozen specification claims.

Conventions of the embedding:

* `float` values are modelled as exact rationals (`ℚ`); the engine constant
  `KINDA_SMALL_NUMBER = 1.e-4f` becomes `1/10000`, and the scanner's literal
  `1e-3f` becomes `1/1000`.
* The scene-query primitives (`LineTraceSingleByChannel`,
  `SweepSingleByChannel`) are external collaborators; they are modelled as
  oracle fields of a `World` structure.  `FVector::Distance` (a Euclidean
  norm, hence an irrational square root in general) is likewise carried as
  an oracle field `dist`; every theorem below holds for an arbitrary
  distance function, and concrete counterexamples choose collinear
  axis-aligned points whose true Euclidean distances are the exact
  rationals supplied.
* `TArray` becomes `List`, `TMap<EE_Box_8Point, ...>` becomes a function
  out of the 8-valued corner type, `TSharedPtr` validity becomes `Option`.
* Out-of-range `TArray` accesses (unreachable in the executions the claims
  speak about) are modelled totally via `List.get?` with a default.
-/

namespace PVolume

/-- A 3-D vector with exact rational coordinates (models `FVector`). -/
structure Vec3 where
  x : ℚ
  y : ℚ
  z : ℚ
deriving DecidableEq, Repr

instance : Inhabited Vec3 := ⟨⟨0, 0, 0⟩⟩

/-- Componentwise addition, used by `LinkedBox_GetCenter`'s running sum. -/
def Vec3.add (a b : Vec3) : Vec3 := ⟨a.x + b.x, a.y + b.y, a.z + b.z⟩

/-- Division of a vector by a scalar (`Sum / float(Count)`). -/
def Vec3.scaleInv (a : Vec3) (q : ℚ) : Vec3 := ⟨a.x / q, a.y / q, a.z / q⟩

/-- The 8-valued corner enumeration `EE_Box_8Point`. -/
inductive Corner where
  | top_forward_right
  | top_forward_left
  | top_backward_right
  | top_backward_left
  | bottom_forward_right
  | bottom_forward_left
  | bottom_backward_right
  | bottom_backward_left
deriving DecidableEq, Fintype, Repr

/-- The declaration order of `EE_Box_8Point`, used for `TMap` iteration in
the embedding (corner maps are inserted in a fixed order everywhere in the
source, and every fold below is order-insensitive anyway). -/
def cornerList : List Corner :=
  [.top_forward_right, .top_forward_left, .top_backward_right, .top_backward_left,
   .bottom_forward_right, .bottom_forward_left, .bottom_backward_right, .bottom_backward_left]

/-- The `UEnum` name string of a corner (`EnumToString`). -/
def cornerName : Corner → String
  | .top_forward_right => "Top_Forward_Right"
  | .top_forward_left => "Top_Forward_Left"
  | .top_backward_right => "Top_Backward_Right"
  | .top_backward_left => "Top_Backward_Left"
  | .bottom_forward_right => "Bottom_Forward_Right"
  | .bottom_forward_left => "Bottom_Forward_Left"
  | .bottom_backward_right => "Bottom_Backward_Right"
  | .bottom_backward_left => "Bottom_Backward_Left"

/-- `StringToEnum`: resolve a JSON key to a corner via the `UEnum` name
lookup; `none` models `GetValueByNameString` returning `INDEX_NONE`. -/
def stringToEnum (s : String) : Option Corner :=
  cornerList.find? (fun c => cornerName c = s)

/-- `FS_LinkedBox`: 8 optional shared corner points plus a `uint8`
visibility mask.  A corner holds `none` when its `FS_LinkedSharedPoint`'s
shared pointer is invalid. -/
structure Cell where
  points : Corner → Option Vec3
  visibilityMask : ℕ
deriving DecidableEq

instance : Inhabited Cell := ⟨⟨fun _ => none, 0⟩⟩

/-- `FS_LinkedBox::SetBoxPoint`. -/
def Cell.setBoxPoint (c : Cell) (k : Corner) (p : Vec3) : Cell :=
  { c with points := fun k' => if k' = k then some p else c.points k' }

/-- `FBox`: min/max corners plus the `IsValid` byte. -/
structure FBox where
  min : Vec3
  max : Vec3
  isValid : Bool
deriving DecidableEq

/-- `FBox(EForceInit::ForceInitToZero)`. -/
def FBox.forceInitZero : FBox := ⟨⟨0, 0, 0⟩, ⟨0, 0, 0⟩, false⟩

/-- `FBox::operator+=(const FVector&)`: grow the box to contain a point. -/
def FBox.plusPoint (b : FBox) (p : Vec3) : FBox :=
  if b.isValid then
    ⟨⟨Min.min b.min.x p.x, Min.min b.min.y p.y, Min.min b.min.z p.z⟩,
     ⟨Max.max b.max.x p.x, Max.max b.max.y p.y, Max.max b.max.z p.z⟩, true⟩
  else ⟨p, p, true⟩

/-- `UCPP_BPL__VolumeAnalysis::MakeBoxFromPoints`: degenerate zero box for
an empty input, else the min/max reduction starting from `FBox(P0, P0)`
(whose constructor sets `IsValid = 1`). -/
def makeBoxFromPoints : List Vec3 → FBox
  | [] => FBox.forceInitZero
  | p :: ps => ps.foldl FBox.plusPoint ⟨p, p, true⟩

/-- The corner values of a cell that are populated, in `TMap` (insertion)
order (`for (const TPair<...> &Pair : InBox.Points) if (IsSharedPointValid)`). -/
def Cell.validPoints (c : Cell) : List Vec3 :=
  cornerList.filterMap c.points

/-- `UCPP_BPL__VolumeAnalysis::LinkedBox_GetCenter`: mean of the populated
corners, zero vector when none is populated. -/
def linkedBoxGetCenter (c : Cell) : Vec3 :=
  let pts := c.validPoints
  if pts.length = 0 then ⟨0, 0, 0⟩
  else (pts.foldl Vec3.add ⟨0, 0, 0⟩).scaleInv (pts.length : ℚ)

/-- `UCPP_BPL__VolumeAnalysis::LinkedBox_GetAABB`. -/
def linkedBoxGetAABB (c : Cell) : FBox :=
  makeBoxFromPoints c.validPoints

/-- One voxel of `GenerateVoxelGridBoxes_ByCounts`: the 8 corners spanned
by `[X0, X1] × [Y0, Y1] × [Z0, Z1]`, visibility mask initialised to 0. -/
def mkVoxel (x0 x1 y0 y1 z0 z1 : ℚ) : Cell :=
  { points := fun k =>
      match k with
      | .bottom_backward_left => some ⟨x0, y0, z0⟩
      | .bottom_backward_right => some ⟨x1, y0, z0⟩
      | .bottom_forward_left => some ⟨x0, y1, z0⟩
      | .bottom_forward_right => some ⟨x1, y1, z0⟩
      | .top_backward_left => some ⟨x0, y0, z1⟩
      | .top_backward_right => some ⟨x1, y0, z1⟩
      | .top_forward_left => some ⟨x0, y1, z1⟩
      | .top_forward_right => some ⟨x1, y1, z1⟩,
    visibilityMask := 0 }

/-- `UCPP_BPL__VolumeAnalysis::GenerateVoxelGridBoxes_ByCounts`.  Counts
are `int32`, hence `ℤ` with the `<= 0` rejection; the triple-nested
`OutBoxes.Add` loop (z outermost, then y, then x) is the flattened
`flatMap`/`map` below. -/
def generateVoxelGridBoxes (box : FBox) (countX countY countZ : ℤ) : List Cell :=
  if ¬box.isValid ∨ countX ≤ 0 ∨ countY ≤ 0 ∨ countZ ≤ 0 then []
  else
    let stepX := if countX > 1 then (box.max.x - box.min.x) / (countX : ℚ) else box.max.x - box.min.x
    let stepY := if countY > 1 then (box.max.y - box.min.y) / (countY : ℚ) else box.max.y - box.min.y
    let stepZ := if countZ > 1 then (box.max.z - box.min.z) / (countZ : ℚ) else box.max.z - box.min.z
    (List.range countZ.toNat).flatMap fun (zi : ℕ) =>
      (List.range countY.toNat).flatMap fun (yi : ℕ) =>
        (List.range countX.toNat).map fun (xi : ℕ) =>
          let z0 := box.min.z + (zi : ℚ) * stepZ
          let y0 := box.min.y + (yi : ℚ) * stepY
          let x0 := box.min.x + (xi : ℚ) * stepX
          mkVoxel x0 (x0 + stepX) y0 (y0 + stepY) z0 (z0 + stepZ)

/-- The flat index of grid coordinates,
`Index(X,Y,Z) = Z*(CountY*CountX) + Y*CountX + X`. -/
def gridIndex (nx ny : ℕ) (x y z : ℕ) : ℕ :=
  z * (ny * nx) + y * nx + x

/-!
## JSON serialisation layer (`CPP_BPL__VolumeAnalysis.cpp`, JSON half)

The JSON document is modelled as an abstract syntax tree; the UE
string-level reader/writer (`FJsonSerializer` with `TJsonReader`/
`TJsonWriter`) is the out-of-scope parsing collaborator.  Deserialising a
string that parses as an object is modelled as `linkedBoxFromJson` applied
to a `Json.obj`; a string that does not parse as the expected shape is a
non-`obj`/non-`arr` value.
-/

/-- A JSON value (`FJsonValue`). -/
inductive Json where
  | num (v : ℚ)
  | str (s : String)
  | boolean (b : Bool)
  | obj (fields : List (String × Json))
  | arr (items : List Json)
  | null

/-- `FJsonObject` field lookup (first binding wins; `TMap` keys are unique). -/
def getField (fields : List (String × Json)) (key : String) : Option Json :=
  (fields.find? (fun p => p.1 = key)).map Prod.snd

/-- `FJsonObject::TryGetNumberField`: present and of number type. -/
def tryGetNumberField (fields : List (String × Json)) (key : String) : Option ℚ :=
  match getField fields key with
  | some (Json.num v) => some v
  | _ => none

/-- `FJsonValue::AsObject`: valid only for object values. -/
def Json.asObject : Json → Option (List (String × Json))
  | Json.obj fs => some fs
  | _ => none

/-- `JsonToVector`: requires a valid object carrying numeric `X`, `Y`, `Z`
fields, failing (`none`) otherwise. -/
def jsonToVector : Option (List (String × Json)) → Option Vec3
  | none => none
  | some fs =>
    match tryGetNumberField fs "X", tryGetNumberField fs "Y", tryGetNumberField fs "Z" with
    | some x, some y, some zq => some ⟨x, y, zq⟩
    | _, _, _ => none

/-- `MakeJsonFromVector`. -/
def makeJsonFromVector (v : Vec3) : Json :=
  Json.obj [("X", Json.num v.x), ("Y", Json.num v.y), ("Z", Json.num v.z)]

/-- The serialised `"Points"` bindings of a cell: populated corners only,
keyed by the corner's enum name (`MakeJsonFromLinkedBox`'s loop). -/
def pointsFields (c : Cell) : List (String × Json) :=
  cornerList.filterMap fun k => (c.points k).map fun p => (cornerName k, makeJsonFromVector p)

/-- `MakeJsonFromLinkedBox`. -/
def makeJsonFromLinkedBox (c : Cell) : Json :=
  Json.obj [("VisibilityMask", Json.num (c.visibilityMask : ℚ)),
            ("Points", Json.obj (pointsFields c))]

/-- Truncation toward zero, modelling the C++ `double → int32` cast. -/
def truncQ (q : ℚ) : ℤ := if 0 ≤ q then ⌊q⌋ else ⌈q⌉

/-- `static_cast<uint8>((int32)VM & 0xFF)`. -/
def maskByte (v : ℚ) : ℕ := ((truncQ v).emod 256).toNat

/-- One iteration of `JsonObjectToLinkedBox`'s `Points` loop: unknown
corner keys are skipped, invalid vector objects are skipped, and a valid
entry sets the corner. -/
def applyPointEntry (acc : Cell) (entry : String × Json) : Cell :=
  match stringToEnum entry.1 with
  | none => acc
  | some k =>
    match jsonToVector entry.2.asObject with
    | some v => acc.setBoxPoint k v
    | none => acc

/-- `JsonObjectToLinkedBox` on a valid root object: always succeeds,
starting from a fresh `FS_LinkedBox` (the caller's `OutBox = FS_LinkedBox()`). -/
def jsonObjectToLinkedBox (fields : List (String × Json)) : Cell :=
  let vm := match tryGetNumberField fields "VisibilityMask" with
    | some v => maskByte v
    | none => 0
  let base : Cell := ⟨fun _ => none, vm⟩
  match getField fields "Points" with
  | some (Json.obj pts) => pts.foldl applyPointEntry base
  | _ => base

/-- `LinkedBox_FromJsonString`: fails only when the payload does not parse
as a JSON object. -/
def linkedBoxFromJson (root : Json) : Option Cell :=
  root.asObject.map jsonObjectToLinkedBox

/-- `LinkedBoxes_FromJsonString`: array payloads keep the entries that are
objects and drop the rest; a single-object payload is accepted as a
one-element result; anything else fails. -/
def linkedBoxesFromJson (root : Json) : Option (List Cell) :=
  match root with
  | Json.arr items => some (items.filterMap fun v => v.asObject.map jsonObjectToLinkedBox)
  | Json.obj fs => some [jsonObjectToLinkedBox fs]
  | _ => none

/-- A concrete serialised cell used to refute C8: one unknown corner key,
one corner object missing its `Z` field, and one fully valid corner. -/
def c8fields : List (String × Json) :=
  [("VisibilityMask", Json.num 1),
   ("Points", Json.obj
     [("Bogus_Key", Json.obj [("X", Json.num 5), ("Y", Json.num 5), ("Z", Json.num 5)]),
      ("Top_Forward_Right", Json.obj [("X", Json.num 1), ("Y", Json.num 2)]),
      ("Top_Forward_Left", Json.obj [("X", Json.num 3), ("Y", Json.num 4), ("Z", Json.num 5)])])]

/-!
## Row scanner core (`ScanRowX`/`ScanRowY`/`ScanColumnZ`/`ScanSubRow`)

The source repeats one identical segmented long-trace scanning lambda four
times, differing only in how a row position is turned into a cell (and in
what "marking" does: setting a grid cell's mask, or raising the
sub-sampling `bAnyVisible` flag).  The embedding factors that shape into a
`RowEnv` parametrised by a marking action over a state `σ`.
-/

/-- `KINDA_SMALL_NUMBER = 1.e-4f`. -/
def kindaSmallNumber : ℚ := 1 / 10000

/-- `FMath::Clamp` on `int32`: `(X < Min) ? Min : (X < Max) ? X : Max`. -/
def clampInt (x lo hi : ℤ) : ℤ := if x < lo then lo else if x < hi then x else hi

/-- `FMath::Clamp` on `float`. -/
def clampQ (x lo hi : ℚ) : ℚ := if x < lo then lo else if x < hi then x else hi

/-- The environment of one row scan: the row's cell count, the distance and
line-trace oracles between row positions (evaluated at the cells' centers),
the per-position center-free test, the marking action, and the configured
max trace distance.  `probe i j = some t` models a blocking hit with
normalised `Hit.Time = t`; `none` models an unobstructed trace. -/
structure RowEnv (σ : Type) where
  count : ℕ
  segLen : ℕ → ℕ → ℚ
  probe : ℕ → ℕ → Option ℚ
  centerFree : ℕ → Bool
  mark : ℕ → σ → σ

  maxTraceDistance : ℚ

/-- `StepLen = FVector::Distance(RowCenter(0), RowCenter(1))`. -/
def RowEnv.stepLen {σ : Type} (e : RowEnv σ) : ℚ := e.segLen 0 1

/-- `TargetI`: `Count-1`, shortened to
`min(StartI + Clamp(FloorToInt(MaxTraceDistance/StepLen), 1, Count-1), Count-1)`
when `MaxTraceDistance > 0` and `StepLen > KINDA_SMALL_NUMBER`. -/
def targetIndex {σ : Type} (e : RowEnv σ) (startI : ℕ) : ℕ :=
  if 0 < e.maxTraceDistance ∧ kindaSmallNumber < e.stepLen then
    let maxSteps := (clampInt ⌊e.maxTraceDistance / e.stepLen⌋ 1 ((e.count : ℤ) - 1)).toNat
    Min.min (startI + maxSteps) (e.count - 1)
  else e.count - 1

/-- `HitIndex`: `Clamp(StartI + FloorToInt(HitDist/StepLen + 1e-3f), StartI, TargetI)`
where `HitDist = Clamp(Hit.Time * SegmentLen, 0, SegmentLen)`, defaulting to
`StartI` when `StepLen` is not above `KINDA_SMALL_NUMBER`. -/
def hitIndex {σ : Type} (e : RowEnv σ) (startI tI : ℕ) (t : ℚ) : ℕ :=
  let segmentLen := e.segLen startI tI
  let hitDist := clampQ (t * segmentLen) 0 segmentLen
  if kindaSmallNumber < e.stepLen then
    (clampInt ((startI : ℤ) + ⌊hitDist / e.stepLen + 1 / 1000⌋) (startI : ℤ) (tI : ℤ)).toNat
  else startI

/-- The claim's `TargetIndex` as worded: the farthest index from
`StartIndex` reachable without exceeding `MaxTraceDistance` when
`MaxTraceDistance > 0` (i.e. `StartIndex + floor(MaxTraceDistance/StepLen)`
capped at the last row index), otherwise the row's last index.  Stated from
the specification's words for refinement comparison against `targetIndex`. -/
def targetIndexClaimed {σ : Type} (e : RowEnv σ) (startI : ℕ) : ℕ :=
  if 0 < e.maxTraceDistance then
    Min.min (startI + (⌊e.maxTraceDistance / e.stepLen⌋).toNat) (e.count - 1)
  else e.count - 1

/-- The claim's `HitIndex` as worded:
`clamp(StartIndex + floor((t * segmentLength) / StepLen), StartIndex, TargetIndex)`.
Stated from the specification's words for refinement comparison against
`hitIndex`. -/
def hitIndexClaimed {σ : Type} (e : RowEnv σ) (startI tI : ℕ) (t : ℚ) : ℕ :=
  (clampInt ((startI : ℤ) + ⌊t * e.segLen startI tI / e.stepLen⌋) (startI : ℤ) (tI : ℤ)).toNat

/-- The marking loop `for (i = lo; i <= hi; ++i) if (IsCenterFree) mark i`. -/
def markSeg {σ : Type} (e : RowEnv σ) (lo hi : ℕ) (s : σ) : σ :=
  (List.range' lo (hi + 1 - lo)).foldl
    (fun acc i => if e.centerFree i then e.mark i acc else acc) s

/-- The segment walk `while (StartI < Count) { ... }` of a row scan. -/
def scanRowFrom {σ : Type} (e : RowEnv σ) (s : σ) (startI : ℕ) : σ :=
  if _h : startI < e.count then
    let tI := targetIndex e startI
    match e.probe startI tI with
    | none => scanRowFrom e (markSeg e startI tI s) (tI + 1)
    | some t =>
        let hI := hitIndex e startI tI t
        scanRowFrom e (markSeg e startI hI s) (Min.min (hI + 1) e.count)
  else s
termination_by e.count - startI
decreasing_by
  · have htI : startI ≤ targetIndex e startI := by
      rw [targetIndex]
      split
      · simp only []
        omega
      · omega
    omega
  · have htI : startI ≤ targetIndex e startI := by
      rw [targetIndex]
      split
      · simp only []
        omega
      · omega
    have hhI : startI ≤ hitIndex e startI (targetIndex e startI) t := by
      rw [hitIndex]
      split
      · simp only [clampInt]
        split
        · omega
        · split <;> omega
      · omega
    omega

/-- One complete row scan: the `Count <= 0` early return, the dedicated
`Count == 1` center-only case, then the segment walk from index 0. -/
def scanRow {σ : Type} (e : RowEnv σ) (s : σ) : σ :=
  if e.count = 0 then s
  else if e.count = 1 then (if e.centerFree 0 then e.mark 0 s else s)
  else scanRowFrom e s 0

/-!
## World, controller state, and the per-tick step
(`CPP_AT_VolumeAnalysis__Base` final evolution)
-/

/-- The external collaborators: scene presence (`GetWorld()`), the line
trace, the zero-extent sphere sweep, and `FVector::Distance`. -/
structure World where
  present : Bool
  lineTrace : Vec3 → Vec3 → Option ℚ
  sphereBlocked : ℚ → Vec3 → Bool
  dist : Vec3 → Vec3 → ℚ

/-- The actor's configuration and mutable run state
(`ACPP_AT_VolumeAnalysis_Base`'s UPROPERTY and private fields). -/
structure CState where
  volumeBox : Cell
  sampleCountX : ℤ
  sampleCountY : ℤ
  sampleCountZ : ℤ
  maxTraceDistance : ℚ
  bUseCenterOverlapTest : Bool
  centerOverlapRadius : ℚ
  bEnableSubSampling : Bool
  subSampleCountX : ℤ
  subSampleCountY : ℤ
  subSampleCountZ : ℤ
  analysisResults : List Cell
  visibleCount : ℕ
  hiddenCount : ℕ
  pendingBoxes : List Cell
  currentCellIndex : ℕ
  bIsRunning : Bool
  gridCountX : ℤ
  gridCountY : ℤ
  gridCountZ : ℤ
  cellSizeX : ℚ
  cellSizeY : ℚ
  cellSizeZ : ℚ
  bIsSubSampling : Bool
  hiddenBoxIndices : List ℕ
  currentHiddenIndex : ℕ
  currentPhase : ℕ
  currentPhaseRowIndex : ℕ

/-- `PendingBoxes[i]` (in-range in every execution the claims concern). -/
def cellAt (l : List Cell) (i : ℕ) : Cell := (l[i]?).getD default

/-- `LinkedBox_GetCenter(PendingBoxes[i])`. -/
def centerAt (l : List Cell) (i : ℕ) : Vec3 := linkedBoxGetCenter (cellAt l i)

/-- `PendingBoxes[i].VisibilityMask = 1`. -/
def setMask1 (l : List Cell) (i : ℕ) : List Cell :=
  match l[i]? with
  | some c => l.set i { c with visibilityMask := 1 }
  | none => l

/-- `IsCenterFree`: trivially true when the overlap test is disabled, else
a zero-extent sphere sweep with the configured radius or the auto radius
`0.25 * max(0.001, Min3(CellSizeX, CellSizeY, CellSizeZ))`. -/
def isCenterFree (w : World) (s : CState) (c : Vec3) : Bool :=
  if ¬s.bUseCenterOverlapTest then true
  else
    let autoR := (1 / 4 : ℚ) * Max.max (1 / 1000) (Min.min s.cellSizeX (Min.min s.cellSizeY s.cellSizeZ))
    let radius := if 0 < s.centerOverlapRadius then s.centerOverlapRadius else autoR
    ¬w.sphereBlocked radius c

/-- `ScanRowX`'s environment for the row at `(YIndex, ZIndex)`: row
position `i` denotes the grid cell `Index(i, YIndex, ZIndex)`, centers are
read from the snapshot `l` taken at scan entry (marking changes only masks,
never corners), and marking sets that cell's visibility mask to 1. -/
def rowEnvX (w : World) (s : CState) (l : List Cell) (yI zI : ℕ) : RowEnv (List Cell) :=
  let nx := s.gridCountX.toNat
  let ny := s.gridCountY.toNat
  { count := nx
    segLen := fun i j => w.dist (centerAt l (gridIndex nx ny i yI zI)) (centerAt l (gridIndex nx ny j yI zI))
    probe := fun i j => w.lineTrace (centerAt l (gridIndex nx ny i yI zI)) (centerAt l (gridIndex nx ny j yI zI))
    centerFree := fun i => isCenterFree w s (centerAt l (gridIndex nx ny i yI zI))
    mark := fun i st => setMask1 st (gridIndex nx ny i yI zI)
    maxTraceDistance := s.maxTraceDistance }

/-- `ScanRowY`'s environment for the row at `(XIndex, ZIndex)`. -/
def rowEnvY (w : World) (s : CState) (l : List Cell) (xI zI : ℕ) : RowEnv (List Cell) :=
  let nx := s.gridCountX.toNat
  let ny := s.gridCountY.toNat
  { count := ny
    segLen := fun i j => w.dist (centerAt l (gridIndex nx ny xI i zI)) (centerAt l (gridIndex nx ny xI j zI))
    probe := fun i j => w.lineTrace (centerAt l (gridIndex nx ny xI i zI)) (centerAt l (gridIndex nx ny xI j zI))
    centerFree := fun i => isCenterFree w s (centerAt l (gridIndex nx ny xI i zI))
    mark := fun i st => setMask1 st (gridIndex nx ny xI i zI)
    maxTraceDistance := s.maxTraceDistance }

/-- `ScanColumnZ`'s environment for the column at `(XIndex, YIndex)`. -/
def rowEnvZ (w : World) (s : CState) (l : List Cell) (xI yI : ℕ) : RowEnv (List Cell) :=
  let nx := s.gridCountX.toNat
  let ny := s.gridCountY.toNat
  { count := s.gridCountZ.toNat
    segLen := fun i j => w.dist (centerAt l (gridIndex nx ny xI yI i)) (centerAt l (gridIndex nx ny xI yI j))
    probe := fun i j => w.lineTrace (centerAt l (gridIndex nx ny xI yI i)) (centerAt l (gridIndex nx ny xI yI j))
    centerFree := fun i => isCenterFree w s (centerAt l (gridIndex nx ny xI yI i))
    mark := fun i st => setMask1 st (gridIndex nx ny xI yI i)
    maxTraceDistance := s.maxTraceDistance }

/-- The moving part of `ProcessRowsStep`'s phase loop. -/
structure MainCursor where
  boxes : List Cell
  phase : ℕ
  rowIdx : ℕ
  rowsProcessed : ℕ

/-- The phase loop
`while (bIsRunning && RowsProcessed < MaxRowsPerTick && CurrentPhase < 3)`. -/
def mainLoop (w : World) (s : CState) (running : Bool) (budget : ℕ) (cur : MainCursor) :
    MainCursor :=
  if _h : running = true ∧ cur.rowsProcessed < budget ∧ cur.phase < 3 then
    if cur.phase = 0 then
      if s.gridCountY * s.gridCountZ ≤ 0 ∨ (s.gridCountY * s.gridCountZ : ℤ) ≤ (cur.rowIdx : ℤ) then
        mainLoop w s running budget { cur with phase := 1, rowIdx := 0 }
      else
        let zI := cur.rowIdx / s.gridCountY.toNat
        let yI := cur.rowIdx % s.gridCountY.toNat
        mainLoop w s running budget
          { cur with boxes := scanRow (rowEnvX w s cur.boxes yI zI) cur.boxes,
                     rowIdx := cur.rowIdx + 1, rowsProcessed := cur.rowsProcessed + 1 }
    else if cur.phase = 1 then
      if s.gridCountX * s.gridCountZ ≤ 0 ∨ (s.gridCountX * s.gridCountZ : ℤ) ≤ (cur.rowIdx : ℤ) then
        mainLoop w s running budget { cur with phase := 2, rowIdx := 0 }
      else
        let zI := cur.rowIdx / s.gridCountX.toNat
        let xI := cur.rowIdx % s.gridCountX.toNat
        mainLoop w s running budget
          { cur with boxes := scanRow (rowEnvY w s cur.boxes xI zI) cur.boxes,
                     rowIdx := cur.rowIdx + 1, rowsProcessed := cur.rowsProcessed + 1 }
    else
      if s.gridCountX * s.gridCountY ≤ 0 ∨ (s.gridCountX * s.gridCountY : ℤ) ≤ (cur.rowIdx : ℤ) then
        { cur with phase := 3 }
      else
        let yI := cur.rowIdx / s.gridCountX.toNat
        let xI := cur.rowIdx % s.gridCountX.toNat
        mainLoop w s running budget
          { cur with boxes := scanRow (rowEnvZ w s cur.boxes xI yI) cur.boxes,
                     rowIdx := cur.rowIdx + 1, rowsProcessed := cur.rowsProcessed + 1 }
  else cur
termination_by (3 - cur.phase, budget - cur.rowsProcessed)
decreasing_by
  · apply Prod.Lex.left
    omega
  · apply Prod.Lex.right
    omega
  · apply Prod.Lex.left
    omega
  · apply Prod.Lex.right
    omega
  · apply Prod.Lex.right
    omega

/-- `IndexSub(X,Y,Z)` inside a sub-grid (`gridIndex` at the sub counts). -/
def subRowEnv (w : World) (s : CState) (sub : List Cell) (count : ℕ) (cellIdx : ℕ → ℕ) :
    RowEnv Bool :=
  { count := count
    segLen := fun i j => w.dist (centerAt sub (cellIdx i)) (centerAt sub (cellIdx j))
    probe := fun i j => w.lineTrace (centerAt sub (cellIdx i)) (centerAt sub (cellIdx j))
    centerFree := fun i => isCenterFree w s (centerAt sub (cellIdx i))
    mark := fun _ _ => true
    maxTraceDistance := s.maxTraceDistance }

/-- The three nested `ScanSubRow` loop batteries of
`ProcessRowsStep_SubSampling`, threading `bAnyVisible` (initially false)
through X-rows, then Y-rows, then Z-columns of the sub-grid. -/
def subScanAll (w : World) (s : CState) (sub : List Cell) : Bool :=
  let sx := s.subSampleCountX.toNat
  let sy := s.subSampleCountY.toNat
  let sz := s.subSampleCountZ.toNat
  let afterX := (List.range sz).foldl (fun acc zI => (List.range sy).foldl (fun acc2 yI =>
      scanRow (subRowEnv w s sub sx (fun i => gridIndex sx sy i yI zI)) acc2) acc) false
  let afterY := (List.range sz).foldl (fun acc zI => (List.range sx).foldl (fun acc2 xI =>
      scanRow (subRowEnv w s sub sy (fun i => gridIndex sx sy xI i zI)) acc2) acc) afterX
  (List.range sy).foldl (fun acc yI => (List.range sx).foldl (fun acc2 xI =>
      scanRow (subRowEnv w s sub sz (fun i => gridIndex sx sy xI yI i)) acc2) acc) afterY

/-- The moving part of the sub-sampling worklist loop. -/
structure SubCursor where
  boxes : List Cell
  curHidden : ℕ
  refined : ℕ

/-- Refinement of one hidden-worklist entry: an already-visible parent is
skipped outright; otherwise a sub-grid is generated inside the parent's
AABB, scanned, and the parent is promoted iff any sub-sample was found
visible.  The sub-grid is local to the iteration and discarded. -/
def subLoop (w : World) (s : CState) (running : Bool) (hidden : List ℕ) (budget : ℕ)
    (cur : SubCursor) : SubCursor :=
  if _h : running = true ∧ cur.refined < budget ∧ cur.curHidden < hidden.length then
    let boxIdx := hidden.getD cur.curHidden 0
    if (cellAt cur.boxes boxIdx).visibilityMask ≠ 0 then
      subLoop w s running hidden budget { cur with curHidden := cur.curHidden + 1 }
    else
      let boxAABB := linkedBoxGetAABB (cellAt cur.boxes boxIdx)
      let subVoxels := generateVoxelGridBoxes boxAABB
        s.subSampleCountX s.subSampleCountY s.subSampleCountZ
      let anyVisible := subScanAll w s subVoxels
      let boxes' := if anyVisible then setMask1 cur.boxes boxIdx else cur.boxes
      subLoop w s running hidden budget
        { boxes := boxes', curHidden := cur.curHidden + 1, refined := cur.refined + 1 }
  else cur
termination_by hidden.length - cur.curHidden
decreasing_by
  · omega
  · omega

/-- The final count recomputation
`for (Box : PendingBoxes) if (Box.VisibilityMask) ++Visible else ++Hidden`. -/
def tally (l : List Cell) : ℕ × ℕ :=
  l.foldl (fun acc c => if c.visibilityMask ≠ 0 then (acc.1 + 1, acc.2) else (acc.1, acc.2 + 1))
    (0, 0)

/-- Run finalisation: stop, recompute both counts from the final cell
flags, and snapshot `PendingBoxes` into `AnalysisResults`. -/
def finalizeRun (s : CState) : CState :=
  let t := tally s.pendingBoxes
  { s with bIsRunning := false, visibleCount := t.1, hiddenCount := t.2,
           analysisResults := s.pendingBoxes }

/-- `ProcessRowsStep_SubSampling`. -/
def processRowsStepSub (w : World) (budget : ℕ) (s : CState) : CState :=
  if ¬s.bIsSubSampling ∨ s.hiddenBoxIndices.length = 0 then s
  else
    let cur := subLoop w s s.bIsRunning s.hiddenBoxIndices budget
      ⟨s.pendingBoxes, s.currentHiddenIndex, 0⟩
    let s' := { s with pendingBoxes := cur.boxes, currentHiddenIndex := cur.curHidden }
    if s'.hiddenBoxIndices.length ≤ cur.curHidden then
      finalizeRun { s' with bIsSubSampling := false, bIsRunning := false }
    else s'

/-- `HiddenBoxIndices` collection after the main pass. -/
def hiddenIndicesOf (boxes : List Cell) : List ℕ :=
  (List.range boxes.length).filter (fun i => (cellAt boxes i).visibilityMask = 0)

/-- `ProcessRowsStep(MaxRowsPerTick)`: the per-tick unit of work. -/
def processRowsStep (w : World) (budget : ℕ) (s : CState) : CState :=
  if ¬w.present then { s with bIsRunning := false }
  else if s.bIsSubSampling then processRowsStepSub w budget s
  else
    let cur := mainLoop w s s.bIsRunning budget
      ⟨s.pendingBoxes, s.currentPhase, s.currentPhaseRowIndex, 0⟩
    let s1 := { s with pendingBoxes := cur.boxes, currentPhase := cur.phase,
                       currentPhaseRowIndex := cur.rowIdx }
    if 3 ≤ cur.phase then
      let s2 := { s1 with currentCellIndex := s1.pendingBoxes.length }
      if s2.bEnableSubSampling ∧ ¬s2.bIsSubSampling then
        let hidden := hiddenIndicesOf s2.pendingBoxes
        let s3 := { s2 with hiddenBoxIndices := hidden,
                            bIsSubSampling := decide (0 < hidden.length),
                            currentHiddenIndex := 0 }
        if 0 < hidden.length then
          let s4 := { s3 with bIsRunning := true }
          if 0 < budget - cur.rowsProcessed then
            processRowsStepSub w (budget - cur.rowsProcessed) s4
          else s4
        else finalizeRun s3
      else if ¬s2.bIsSubSampling then finalizeRun s2
      else s2
    else
      if s1.bIsSubSampling then
        if 0 < budget - cur.rowsProcessed then
          processRowsStepSub w (budget - cur.rowsProcessed) s1
        else s1
      else s1

/-- `StartAnalysis` (final evolution): aborts with no state change when no
world is attached or when the volume box yields an invalid AABB; otherwise
rebuilds the grid, caches grid counts and approximate cell sizes, clears
results, counts and all scan bookkeeping, and enters the running state. -/
def startAnalysis (w : World) (s : CState) : CState :=
  if ¬w.present then s
  else
    let aabb := linkedBoxGetAABB s.volumeBox
    if ¬aabb.isValid then s
    else
      let boxes := (generateVoxelGridBoxes aabb s.sampleCountX s.sampleCountY s.sampleCountZ).map
        (fun c => { c with visibilityMask := 0 })
      { s with
        pendingBoxes := boxes
        gridCountX := s.sampleCountX
        gridCountY := s.sampleCountY
        gridCountZ := s.sampleCountZ
        cellSizeX := if 0 < s.sampleCountX then (aabb.max.x - aabb.min.x) / (s.sampleCountX : ℚ) else 0
        cellSizeY := if 0 < s.sampleCountY then (aabb.max.y - aabb.min.y) / (s.sampleCountY : ℚ) else 0
        cellSizeZ := if 0 < s.sampleCountZ then (aabb.max.z - aabb.min.z) / (s.sampleCountZ : ℚ) else 0
        analysisResults := []
        visibleCount := 0
        hiddenCount := 0
        bIsSubSampling := false
        hiddenBoxIndices := []
        currentHiddenIndex := 0
        currentCellIndex := 0
        currentPhase := 0
        currentPhaseRowIndex := 0
        bIsRunning := true }

/-- `GetAnalysisResults`. -/
def getAnalysisResults (s : CState) : List Cell := s.analysisResults

/-- `GetVisiblePointCount`. -/
def getVisiblePointCount (s : CState) : ℕ := s.visibleCount

/-- `GetHiddenPointCount`. -/
def getHiddenPointCount (s : CState) : ℕ := s.hiddenCount

/-- `GetVisibilityPercentage`: `Visible * 100 / Total`, or 0 when empty. -/
def getVisibilityPercentage (s : CState) : ℚ :=
  if 0 < s.visibleCount + s.hiddenCount then
    (s.visibleCount : ℚ) * 100 / ((s.visibleCount : ℚ) + (s.hiddenCount : ℚ))
  else 0

/-- `StopAnalysis` (final evolution). -/
def stopAnalysis (s : CState) : CState :=
  { s with bIsRunning := false, bIsSubSampling := false }

/-- How one scanning step may transform the grid list: same length, and
every cell is either untouched or promoted to visibility mask 1 (its
corners intact).  Every marking operation of the run satisfies this, which
is exactly the monotonicity the specification asserts. -/
def stepPreserves (l l' : List Cell) : Prop :=
  l'.length = l.length ∧
  ∀ i, cellAt l' i = cellAt l i ∨ cellAt l' i = { cellAt l i with visibilityMask := 1 }

/-- A neutral controller state used as the base of concrete scenarios:
empty volume box, unit sample counts, every optional feature off, all run
state idle. -/
def baseState : CState :=
  { volumeBox := ⟨fun _ => none, 0⟩
    sampleCountX := 1, sampleCountY := 1, sampleCountZ := 1
    maxTraceDistance := 0
    bUseCenterOverlapTest := false
    centerOverlapRadius := 0
    bEnableSubSampling := false
    subSampleCountX := 1, subSampleCountY := 1, subSampleCountZ := 1
    analysisResults := []
    visibleCount := 0, hiddenCount := 0
    pendingBoxes := []
    currentCellIndex := 0
    bIsRunning := false
    gridCountX := 0, gridCountY := 0, gridCountZ := 0
    cellSizeX := 0, cellSizeY := 0, cellSizeZ := 0
    bIsSubSampling := false
    hiddenBoxIndices := []
    currentHiddenIndex := 0
    currentPhase := 0
    currentPhaseRowIndex := 0 }

/-- The volume box of C2's refuting input: exactly two populated corner
points, both equal to the origin — fewer than 2 *distinct* valid points,
yet enough for `FBox(P0, P0)` to mark the AABB valid. -/
def c2box : Cell :=
  { points := fun k =>
      match k with
      | .top_forward_right => some ⟨0, 0, 0⟩
      | .top_forward_left => some ⟨0, 0, 0⟩
      | _ => none
    visibilityMask := 0 }

/-- A concrete scene with nothing in it: world attached, all line traces
clear, no sphere overlaps, all distances reported as 0. -/
def trivWorld : World :=
  { present := true
    lineTrace := fun _ _ => none
    sphereBlocked := fun _ _ => false
    dist := fun _ _ => 0 }

/-- The row environment of C1's refuting input: a 2-cell row whose centers
sit at `(0,0,0)` and `(1,0,0)` (so every center distance is the exact
rational `|j - i|`), an always-blocking scene with normalised hit fraction
`t = 0.9995`, no center test, unlimited trace distance, and marking as a
plain position-indexed flag assignment. -/
def c1envHit : RowEnv (ℕ → Bool) :=
  { count := 2
    segLen := fun i j => |(j : ℚ) - (i : ℚ)|
    probe := fun _ _ => some (1999 / 2000)
    centerFree := fun _ => true
    mark := fun i m => Function.update m i true
    maxTraceDistance := 0 }

/-- The row environment of C1's second refuting input: the same 2-cell row
with a clear scene and `MaxTraceDistance = 1/2`, i.e. strictly less than
the step length 1. -/
def c1envMtd : RowEnv (ℕ → Bool) :=
  { count := 2
    segLen := fun i j => |(j : ℚ) - (i : ℚ)|
    probe := fun _ _ => none
    centerFree := fun _ => true
    mark := fun i m => Function.update m i true
    maxTraceDistance := 1 / 2 }

section GridLemmas

theorem flatMap_range_length {α : Type} (f : ℕ → List α) (m n : ℕ)
    (hm : ∀ i, (f i).length = m) :
    ((List.range n).flatMap f).length = n * m := by
  induction n with
  | zero => simp
  | succ k ih =>
      rw [List.range_succ, List.flatMap_append, List.length_append, ih]
      simp [hm, Nat.succ_mul]

theorem flatMap_range_getElem? {α : Type} (f : ℕ → List α) (m n i r : ℕ)
    (hm : ∀ j, (f j).length = m) (hi : i < n) (hr : r < m) :
    ((List.range n).flatMap f)[i * m + r]? = (f i)[r]? := by
  induction n with
  | zero => omega
  | succ k ih =>
      rw [List.range_succ, List.flatMap_append, List.getElem?_append]
      rcases Nat.lt_or_ge i k with h | h
      · rw [if_pos]
        · exact ih h
        · rw [flatMap_range_length f m k hm]
          calc i * m + r < i * m + m := by omega
            _ = (i + 1) * m := by ring
            _ ≤ k * m := Nat.mul_le_mul_right m (by omega)
      · have hik : i = k := by omega
        subst hik
        rw [if_neg, flatMap_range_length f m i hm]
        · simp
        · rw [flatMap_range_length f m i hm]; omega

/-- Step size along an axis: the conditional in the source collapses to
extent/count for every positive count, since dividing by one is identity. -/
theorem step_eq_div (lo hi : ℚ) (n : ℤ) (hn : 0 < n) :
    (if n > 1 then (hi - lo) / (n : ℚ) else hi - lo) = (hi - lo) / (n : ℚ) := by
  split
  · rfl
  · have hn1 : n = 1 := by omega
    subst hn1; norm_num

theorem generateVoxelGridBoxes_length (box : FBox) (cx cy cz : ℤ)
    (hb : box.isValid = true) (hx : 0 < cx) (hy : 0 < cy) (hz : 0 < cz) :
    (generateVoxelGridBoxes box cx cy cz).length = cz.toNat * (cy.toNat * cx.toNat) := by
  rw [generateVoxelGridBoxes, if_neg (by simp [hb]; omega)]
  rw [flatMap_range_length _ (cy.toNat * cx.toNat)]
  intro zi
  rw [flatMap_range_length _ cx.toNat]
  intro yi
  simp

theorem generateVoxelGridBoxes_getElem (box : FBox) (cx cy cz : ℤ)
    (hb : box.isValid = true) (hx : 0 < cx) (hy : 0 < cy) (hz : 0 < cz)
    (x y z : ℕ) (hxx : x < cx.toNat) (hyy : y < cy.toNat) (hzz : z < cz.toNat) :
    (generateVoxelGridBoxes box cx cy cz)[gridIndex cx.toNat cy.toNat x y z]? =
      some (mkVoxel
        (box.min.x + (x : ℚ) * ((box.max.x - box.min.x) / (cx : ℚ)))
        (box.min.x + (x : ℚ) * ((box.max.x - box.min.x) / (cx : ℚ)) + (box.max.x - box.min.x) / (cx : ℚ))
        (box.min.y + (y : ℚ) * ((box.max.y - box.min.y) / (cy : ℚ)))
        (box.min.y + (y : ℚ) * ((box.max.y - box.min.y) / (cy : ℚ)) + (box.max.y - box.min.y) / (cy : ℚ))
        (box.min.z + (z : ℚ) * ((box.max.z - box.min.z) / (cz : ℚ)))
        (box.min.z + (z : ℚ) * ((box.max.z - box.min.z) / (cz : ℚ)) + (box.max.z - box.min.z) / (cz : ℚ))) := by
  rw [generateVoxelGridBoxes, if_neg (by simp [hb]; omega)]
  rw [step_eq_div _ _ _ hx, step_eq_div _ _ _ hy, step_eq_div _ _ _ hz]
  unfold gridIndex
  simp only [Nat.add_assoc]
  rw [flatMap_range_getElem? _ (cy.toNat * cx.toNat) _ z (y * cx.toNat + x)
        (fun j => by rw [flatMap_range_length _ cx.toNat] ; intro yi ; simp)
        hzz (by calc y * cx.toNat + x < y * cx.toNat + cx.toNat := by omega
                _ = (y + 1) * cx.toNat := by ring
                _ ≤ cy.toNat * cx.toNat := Nat.mul_le_mul_right _ (by omega))]
  rw [flatMap_range_getElem? _ cx.toNat _ y x (fun j => by simp) hyy hxx]
  rw [List.getElem?_map, List.getElem?_range hxx]
  rfl

theorem generateVoxelGridBoxes_mem (box : FBox) (cx cy cz : ℤ) (c : Cell)
    (hc : c ∈ generateVoxelGridBoxes box cx cy cz) :
    (∀ k, (c.points k).isSome) ∧ c.visibilityMask = 0 := by
  rw [generateVoxelGridBoxes] at hc
  split at hc
  · simp at hc
  · simp only [List.mem_flatMap, List.mem_map, List.mem_range] at hc
    obtain ⟨zi, _, yi, _, xi, _, rfl⟩ := hc
    refine ⟨fun k => ?_, rfl⟩
    cases k <;> simp [mkVoxel]

end GridLemmas

/-- C4: `generateVoxelGrid` (the source's `GenerateVoxelGridBoxes_ByCounts`)
returns an empty grid when the box is invalid or a per-axis count is ≤ 0;
otherwise it divides each axis extent into `count` equal steps (not
`count−1`), producing exactly `countX·countY·countZ` cells in Z-major, then
Y, then X order — the cell at flat index `z·(ny·nx) + y·nx + x` spans
`[min + i·step, min + (i+1)·step]` per axis — with all 8 corners populated
and the visibility flag initialised to hidden (0). Over the box
`[0,0,0]-[2,2,2]` with counts `(2,1,1)` it yields exactly the two cells
spanning `x ∈ [0,1)` and `x ∈ [1,2)`. -/
theorem c4_generateVoxelGrid (box : FBox) (cx cy cz : ℤ) :
    ((box.isValid = false ∨ cx ≤ 0 ∨ cy ≤ 0 ∨ cz ≤ 0) →
        generateVoxelGridBoxes box cx cy cz = []) ∧
    (box.isValid = true → 0 < cx → 0 < cy → 0 < cz →
      (generateVoxelGridBoxes box cx cy cz).length = cz.toNat * (cy.toNat * cx.toNat) ∧
      (∀ c ∈ generateVoxelGridBoxes box cx cy cz,
        (∀ k, (c.points k).isSome) ∧ c.visibilityMask = 0) ∧
      (∀ x y z : ℕ, x < cx.toNat → y < cy.toNat → z < cz.toNat →
        (generateVoxelGridBoxes box cx cy cz)[gridIndex cx.toNat cy.toNat x y z]? =
          some (mkVoxel
            (box.min.x + (x : ℚ) * ((box.max.x - box.min.x) / (cx : ℚ)))
            (box.min.x + ((x : ℚ) + 1) * ((box.max.x - box.min.x) / (cx : ℚ)))
            (box.min.y + (y : ℚ) * ((box.max.y - box.min.y) / (cy : ℚ)))
            (box.min.y + ((y : ℚ) + 1) * ((box.max.y - box.min.y) / (cy : ℚ)))
            (box.min.z + (z : ℚ) * ((box.max.z - box.min.z) / (cz : ℚ)))
            (box.min.z + ((z : ℚ) + 1) * ((box.max.z - box.min.z) / (cz : ℚ)))))) ∧
    generateVoxelGridBoxes ⟨⟨0, 0, 0⟩, ⟨2, 2, 2⟩, true⟩ 2 1 1 =
      [mkVoxel 0 1 0 2 0 2, mkVoxel 1 2 0 2 0 2] := by
  refine ⟨?_, ?_, ?_⟩
  · intro h
    rw [generateVoxelGridBoxes, if_pos]
    rcases h with h | h | h | h <;> simp [h]
  · intro hb hx hy hz
    refine ⟨generateVoxelGridBoxes_length box cx cy cz hb hx hy hz,
      fun c hc => generateVoxelGridBoxes_mem box cx cy cz c hc,
      fun x y z hxx hyy hzz => ?_⟩
    rw [generateVoxelGridBoxes_getElem box cx cy cz hb hx hy hz x y z hxx hyy hzz]
    ring_nf
  · show generateVoxelGridBoxes ⟨⟨0, 0, 0⟩, ⟨2, 2, 2⟩, true⟩ 2 1 1 = _
    rw [generateVoxelGridBoxes, if_neg (by norm_num)]
    norm_num [List.range_succ]
    rw [show Int.toNat 2 = 2 from rfl]
    norm_num [List.range_succ]

section JsonLemmas

theorem stringToEnum_cornerName (k : Corner) : stringToEnum (cornerName k) = some k := by
  cases k <;> decide

theorem cornerName_injective : Function.Injective cornerName := by decide

theorem mem_cornerList (k : Corner) : k ∈ cornerList := by cases k <;> decide

theorem jsonToVector_makeJsonFromVector (v : Vec3) :
    jsonToVector (makeJsonFromVector v).asObject = some v := by
  simp [jsonToVector, makeJsonFromVector, Json.asObject, tryGetNumberField, getField, List.find?]

theorem applyPointEntry_known (acc : Cell) (k : Corner) (p : Vec3) :
    applyPointEntry acc (cornerName k, makeJsonFromVector p) = acc.setBoxPoint k p := by
  simp [applyPointEntry, stringToEnum_cornerName, jsonToVector_makeJsonFromVector]

theorem foldl_applyPointEntry (c : Cell) (ks : List Corner) (hnd : ks.Nodup) (base : Cell)
    (k' : Corner) :
    ((ks.filterMap fun k => (c.points k).map fun p => (cornerName k, makeJsonFromVector p)).foldl
        applyPointEntry base).points k' =
      if k' ∈ ks ∧ (c.points k').isSome then c.points k' else base.points k' := by
  induction ks generalizing base with
  | nil => simp
  | cons k ks ih =>
    have hknotin : k ∉ ks := (List.nodup_cons.mp hnd).1
    have hndtail : ks.Nodup := (List.nodup_cons.mp hnd).2
    rcases hk : c.points k with _ | p
    · rw [List.filterMap_cons]
      simp only [hk, Option.map_none']
      rw [ih hndtail base]
      by_cases h1 : k' ∈ ks ∧ (c.points k').isSome
      · rw [if_pos h1, if_pos ⟨List.mem_cons_of_mem k h1.1, h1.2⟩]
      · rw [if_neg h1, if_neg]
        rintro ⟨hmem, hsome⟩
        rcases List.mem_cons.mp hmem with rfl | hmem'
        · rw [hk] at hsome; simp at hsome
        · exact h1 ⟨hmem', hsome⟩
    · rw [List.filterMap_cons]
      simp only [hk, Option.map_some', List.foldl_cons, applyPointEntry_known]
      rw [ih hndtail (base.setBoxPoint k p)]
      by_cases h1 : k' ∈ ks ∧ (c.points k').isSome
      · rw [if_pos h1, if_pos ⟨List.mem_cons_of_mem k h1.1, h1.2⟩]
      · rw [if_neg h1]
        by_cases h2 : k' = k
        · subst h2
          rw [if_pos ⟨List.mem_cons_self k' ks, by rw [hk]; rfl⟩, hk]
          simp [Cell.setBoxPoint]
        · rw [if_neg]
          · simp [Cell.setBoxPoint, h2]
          · rintro ⟨hmem, hsome⟩
            rcases List.mem_cons.mp hmem with rfl | hmem'
            · exact h2 rfl
            · exact h1 ⟨hmem', hsome⟩

theorem maskByte_natCast (n : ℕ) (h : n < 256) : maskByte (n : ℚ) = n := by
  have h0 : truncQ (n : ℚ) = (n : ℤ) := by
    rw [truncQ, if_pos (by positivity)]
    exact_mod_cast Int.floor_natCast n
  have h1 : ((n : ℤ)).emod 256 = (n : ℤ) :=
    Int.emod_eq_of_lt (by positivity) (by exact_mod_cast h)
  rw [maskByte, h0, h1]
  simp

theorem applyPointEntry_mask (acc : Cell) (e : String × Json) :
    (applyPointEntry acc e).visibilityMask = acc.visibilityMask := by
  rw [applyPointEntry]
  rcases stringToEnum e.1 with _ | k
  · rfl
  · rcases jsonToVector e.2.asObject with _ | v
    · rfl
    · rfl

theorem foldl_applyPointEntry_mask (l : List (String × Json)) (acc : Cell) :
    (l.foldl applyPointEntry acc).visibilityMask = acc.visibilityMask := by
  induction l generalizing acc with
  | nil => rfl
  | cons e l ih => rw [List.foldl_cons, ih, applyPointEntry_mask]

theorem foldl_pointsFields (c : Cell) (vm : ℕ) :
    (pointsFields c).foldl applyPointEntry ⟨fun _ => none, vm⟩ = ⟨c.points, vm⟩ := by
  have hpts : ∀ k', ((pointsFields c).foldl applyPointEntry ⟨fun _ => none, vm⟩).points k'
      = c.points k' := by
    intro k'
    rw [pointsFields, foldl_applyPointEntry _ cornerList (by decide)]
    simp only [mem_cornerList, true_and]
    rcases h : c.points k' with _ | p
    · simp [h]
    · simp [h]
  have hmask := foldl_applyPointEntry_mask (pointsFields c) ⟨fun _ => none, vm⟩
  rcases hfold : (pointsFields c).foldl applyPointEntry ⟨fun _ => none, vm⟩ with ⟨p, m⟩
  rw [hfold] at hpts hmask
  simp only at hpts hmask
  rw [hmask]
  congr 1
  exact funext hpts

theorem jsonObjectToLinkedBox_serialised (c : Cell) (hm : c.visibilityMask < 256) :
    jsonObjectToLinkedBox [("VisibilityMask", Json.num (c.visibilityMask : ℚ)),
                           ("Points", Json.obj (pointsFields c))] = c := by
  have h1 : tryGetNumberField [("VisibilityMask", Json.num (c.visibilityMask : ℚ)),
      ("Points", Json.obj (pointsFields c))] "VisibilityMask" = some (c.visibilityMask : ℚ) := by
    simp [tryGetNumberField, getField]
  have h2 : getField [("VisibilityMask", Json.num (c.visibilityMask : ℚ)),
      ("Points", Json.obj (pointsFields c))] "Points" = some (Json.obj (pointsFields c)) := by
    simp [getField]
  rw [jsonObjectToLinkedBox]
  simp only [h1, h2, maskByte_natCast _ hm, foldl_pointsFields]

end JsonLemmas

/-- C9: serialising a cell (in particular one with all 8 corners populated
and visibility mask 1) to JSON and deserialising reproduces exactly the
same corner coordinates (exact in the rational model, hence within any
floating-point tolerance) and the same visibility mask; corners with no
populated value are omitted from the `"Points"` object on save and left
unset on load. -/
theorem c9_json_roundTrip (c : Cell) (hm : c.visibilityMask < 256) :
    linkedBoxFromJson (makeJsonFromLinkedBox c) = some c ∧
    (∀ k, c.points k = none → getField (pointsFields c) (cornerName k) = none) := by
  constructor
  · rw [makeJsonFromLinkedBox, linkedBoxFromJson, Json.asObject, Option.map_some',
      jsonObjectToLinkedBox_serialised c hm]
  · intro k hk
    rw [getField, List.find?_eq_none.mpr, Option.map_none']
    rintro ⟨s, j⟩ hmem
    simp only [pointsFields, List.mem_filterMap] at hmem
    obtain ⟨k'', hk'', hmap⟩ := hmem
    rcases h : c.points k'' with _ | p
    · rw [h] at hmap; simp at hmap
    · rw [h] at hmap
      simp only [Option.map_some', Option.some.injEq, Prod.mk.injEq] at hmap
      intro hcontra
      have hs : s = cornerName k := by simpa using hcontra
      have : k'' = k := cornerName_injective (hmap.1.trans hs)
      rw [this, hk] at h
      exact Option.noConfusion h

/-- Witness for C9: the cell with all 8 corners populated at `(1,2,3)` and
visibility mask 1 round-trips to itself. -/
theorem c9_witness :
    (⟨fun _ => some ⟨1, 2, 3⟩, 1⟩ : Cell).visibilityMask < 256 ∧
    linkedBoxFromJson (makeJsonFromLinkedBox ⟨fun _ => some ⟨1, 2, 3⟩, 1⟩) =
      some ⟨fun _ => some ⟨1, 2, 3⟩, 1⟩ :=
  ⟨by norm_num, (c9_json_roundTrip ⟨fun _ => some ⟨1, 2, 3⟩, 1⟩ (by norm_num)).1⟩

/-- C8 counterexample: deserialising a cell whose `Top_Forward_Right`
corner object is missing its `Z` field does NOT make the per-cell
deserialise call fail — it succeeds (`some`), merely leaving that corner
unset while still processing the remaining entries.  The claim's "makes
the whole per-cell deserialize call fail and return no cell" is false. -/
theorem c8_counterexample :
    linkedBoxFromJson (Json.obj c8fields) = some (jsonObjectToLinkedBox c8fields) ∧
    (jsonObjectToLinkedBox c8fields).points Corner.top_forward_right = none ∧
    (jsonObjectToLinkedBox c8fields).points Corner.top_forward_left = some ⟨3, 4, 5⟩ ∧
    (jsonObjectToLinkedBox c8fields).visibilityMask = 1 := by
  refine ⟨rfl, ?_, ?_, ?_⟩
  · simp [jsonObjectToLinkedBox, c8fields, getField, applyPointEntry, stringToEnum,
      cornerList, cornerName, jsonToVector, Json.asObject, tryGetNumberField, Cell.setBoxPoint]
  · simp [jsonObjectToLinkedBox, c8fields, getField, applyPointEntry, stringToEnum,
      cornerList, cornerName, jsonToVector, Json.asObject, tryGetNumberField, Cell.setBoxPoint]
  · have hv : tryGetNumberField c8fields "VisibilityMask" = some 1 := by
      simp [tryGetNumberField, getField, c8fields]
    have hp : getField c8fields "Points" = some (Json.obj
        [("Bogus_Key", Json.obj [("X", Json.num 5), ("Y", Json.num 5), ("Z", Json.num 5)]),
         ("Top_Forward_Right", Json.obj [("X", Json.num 1), ("Y", Json.num 2)]),
         ("Top_Forward_Left", Json.obj [("X", Json.num 3), ("Y", Json.num 4), ("Z", Json.num 5)])]) := by
      simp [getField, c8fields]
    rw [jsonObjectToLinkedBox]
    simp only [hv, hp, foldl_applyPointEntry_mask]
    have h256 : maskByte ((1 : ℕ) : ℚ) = 1 := maskByte_natCast 1 (by norm_num)
    norm_num at h256
    rw [h256]

/-- C8 as amended: a `Points` entry whose key is not a known corner name is
skipped with the remaining entries still processed, and a corner object
missing any of its `X`/`Y`/`Z` numeric fields is likewise skipped (that
corner is left unset) — the per-cell deserialise call itself always
succeeds for a parsed object; array deserialisation is best-effort,
keeping exactly the entries that are JSON objects and dropping the rest. -/
theorem c8_amended (fields pts : List (String × Json)) (acc : Cell)
    (entry : String × Json) (items : List Json) :
    linkedBoxFromJson (Json.obj fields) = some (jsonObjectToLinkedBox fields) ∧
    (stringToEnum entry.1 = none → applyPointEntry acc entry = acc) ∧
    (jsonToVector entry.2.asObject = none → applyPointEntry acc entry = acc) ∧
    (getField fields "Points" = some (Json.obj pts) →
      jsonObjectToLinkedBox fields =
        pts.foldl applyPointEntry
          ⟨fun _ => none, (jsonObjectToLinkedBox fields).visibilityMask⟩) ∧
    linkedBoxesFromJson (Json.arr items) =
      some ((items.filterMap Json.asObject).map jsonObjectToLinkedBox) := by
  refine ⟨rfl, ?_, ?_, ?_, ?_⟩
  · intro h
    rw [applyPointEntry, h]
  · intro h
    rw [applyPointEntry]
    rcases stringToEnum entry.1 with _ | k
    · rfl
    · rw [h]
  · intro h
    conv_lhs => rw [jsonObjectToLinkedBox]
    rw [jsonObjectToLinkedBox, h, foldl_applyPointEntry_mask]
  · rw [linkedBoxesFromJson]
    congr 1
    induction items with
    | nil => rfl
    | cons v items ih =>
      cases v with
      | obj fs => exact congrArg₂ List.cons rfl ih
      | num q => exact ih
      | str s => exact ih
      | boolean b => exact ih
      | arr xs => exact ih
      | null => exact ih

/-- Witness for C8's amended theorem at the concrete refuting input. -/
theorem c8_amended_witness :
    stringToEnum "Bogus_Key" = none ∧
    applyPointEntry (default : Cell)
      ("Bogus_Key", Json.obj [("X", Json.num 5), ("Y", Json.num 5), ("Z", Json.num 5)]) =
      (default : Cell) :=
  ⟨by decide,
   (c8_amended c8fields [] default
      ("Bogus_Key", Json.obj [("X", Json.num 5), ("Y", Json.num 5), ("Z", Json.num 5)])
      []).2.1 (by decide)⟩

/-- Witness for C4 at a concrete input: box `[0,0,0]-[3,3,3]`, counts
`(3,2,1)`; all hypotheses discharged and the length evaluated. -/
theorem c4_witness :
    (generateVoxelGridBoxes ⟨⟨0, 0, 0⟩, ⟨3, 3, 3⟩, true⟩ 3 2 1).length = 6 := by
  have h := (c4_generateVoxelGrid ⟨⟨0, 0, 0⟩, ⟨3, 3, 3⟩, true⟩ 3 2 1).2.1
    rfl (by norm_num) (by norm_num) (by norm_num)
  rw [h.1]
  rfl

section RowScanLemmas

variable {σ : Type}

theorem targetIndex_ge (e : RowEnv σ) (startI : ℕ) (h : startI < e.count) :
    startI ≤ targetIndex e startI := by
  rw [targetIndex]
  split
  · simp only []
    omega
  · omega

theorem targetIndex_le (e : RowEnv σ) (startI : ℕ) :
    targetIndex e startI ≤ e.count - 1 := by
  rw [targetIndex]
  split
  · simp only []
    omega
  · omega

theorem hitIndex_ge (e : RowEnv σ) (startI tI : ℕ) (t : ℚ) (h : startI ≤ tI) :
    startI ≤ hitIndex e startI tI t := by
  rw [hitIndex]
  split
  · simp only [clampInt]
    split
    · omega
    · split <;> omega
  · omega

theorem hitIndex_le (e : RowEnv σ) (startI tI : ℕ) (t : ℚ) (h : startI ≤ tI) :
    hitIndex e startI tI t ≤ tI := by
  rw [hitIndex]
  split
  · simp only [clampInt]
    split
    · omega
    · split <;> omega
  · omega

theorem scanRowFrom_stop (e : RowEnv σ) (s : σ) (startI : ℕ) (h : e.count ≤ startI) :
    scanRowFrom e s startI = s := by
  rw [scanRowFrom]
  rw [dif_neg (by omega)]

theorem scanRowFrom_clear (e : RowEnv σ) (s : σ) (startI : ℕ) (h : startI < e.count)
    (hp : e.probe startI (targetIndex e startI) = none) :
    scanRowFrom e s startI =
      scanRowFrom e (markSeg e startI (targetIndex e startI) s) (targetIndex e startI + 1) := by
  conv_lhs => rw [scanRowFrom]
  rw [dif_pos h]
  simp only [hp]

theorem scanRowFrom_hit (e : RowEnv σ) (s : σ) (startI : ℕ) (t : ℚ) (h : startI < e.count)
    (hp : e.probe startI (targetIndex e startI) = some t) :
    scanRowFrom e s startI =
      scanRowFrom e (markSeg e startI (hitIndex e startI (targetIndex e startI) t) s)
        (hitIndex e startI (targetIndex e startI) t + 1) := by
  conv_lhs => rw [scanRowFrom]
  rw [dif_pos h]
  simp only [hp]
  have h1 : hitIndex e startI (targetIndex e startI) t ≤ e.count - 1 :=
    le_trans (hitIndex_le e startI _ t (targetIndex_ge e startI h)) (targetIndex_le e startI)
  rw [Nat.min_eq_left (by omega)]

theorem markSeg_flag (e : RowEnv (ℕ → Bool))
    (hmark : e.mark = fun i m => Function.update m i true)
    (lo hi : ℕ) (m : ℕ → Bool) (n : ℕ) :
    markSeg e lo hi m n =
      (m n || (decide (lo ≤ n) && decide (n ≤ hi) && e.centerFree n)) := by
  rw [markSeg]
  have key : ∀ (len start : ℕ) (m0 : ℕ → Bool),
      ((List.range' start len).foldl (fun acc i => if e.centerFree i then e.mark i acc else acc) m0) n
        = (m0 n || (decide (start ≤ n) && decide (n < start + len) && e.centerFree n)) := by
    intro len
    induction len with
    | zero => intro start m0; simp
    | succ k ih =>
        intro start m0
        rw [List.range'_succ, List.foldl_cons, ih]
        by_cases hc : e.centerFree start
        · by_cases hn : n = start
          · subst hn
            simp [hmark, hc]
          · simp only [hc, if_pos, hmark, Function.update]
            simp only [eq_rec_constant, dif_neg (by omega : ¬n = start)]
            by_cases h1 : start ≤ n
            · by_cases h2 : n < start + (k + 1)
              · have h1' : start + 1 ≤ n := by omega
                have h2' : n < start + 1 + k := by omega
                simp [h1, h2, h1', h2', hc]
              · have : ¬n < start + 1 + k := by omega
                simp [h2, this]
            · have h1' : ¬start + 1 ≤ n := by omega
              simp [h1, h1']
        · simp only [hc, if_neg, Bool.false_eq_true, not_false_iff]
          by_cases hn : n = start
          · subst hn
            simp [hc]
          · by_cases h1 : start ≤ n
            · by_cases h2 : n < start + (k + 1)
              · have h1' : start + 1 ≤ n := by omega
                have h2' : n < start + 1 + k := by omega
                simp [h1, h2, h1', h2']
              · have : ¬n < start + 1 + k := by omega
                simp [h2, this]
            · have h1' : ¬start + 1 ≤ n := by omega
              simp [h1, h1']
  rw [key]
  by_cases h1 : lo ≤ n
  · by_cases h2 : n ≤ hi
    · have h2' : n < lo + (hi + 1 - lo) := by omega
      simp [h1, h2, h2']
    · by_cases h3 : n < lo + (hi + 1 - lo)
      · omega
      · simp [h2, h3]
  · simp [h1]

end RowScanLemmas

/-- C1 counterexample.  On the 2-cell row `c1envHit` (centers at distance
1, always-blocking scene with hit fraction `t = 1999/2000`, no max trace
distance) the code's first iteration probes segment `(0, 1)` and computes
`HitIndex = 1` — because of the `+ 1e-3` added before flooring — whereas
the claim's formula `clamp(StartIndex + floor(t·segmentLength/StepLen), …)`
yields 0, so the code marks index 1 in an iteration in which the claim says
only index 0 is marked.  On `c1envMtd` (`MaxTraceDistance = 1/2 <
StepLen = 1`) the code picks `TargetIndex = 1` — the `Clamp(…, 1, Count-1)`
forces at least one step — whereas the farthest index reachable without
exceeding `MaxTraceDistance` is 0.  Both formulas of the claim are
therefore false of the code. -/
theorem c1_counterexample :
    targetIndex c1envHit 0 = 1 ∧
    hitIndex c1envHit 0 1 (1999 / 2000) = 1 ∧
    hitIndexClaimed c1envHit 0 1 (1999 / 2000) = 0 ∧
    markSeg c1envHit 0 (hitIndex c1envHit 0 1 (1999 / 2000)) (fun _ => false) 1 = true ∧
    targetIndex c1envMtd 0 = 1 ∧
    targetIndexClaimed c1envMtd 0 = 0 := by
  have hstep : c1envHit.stepLen = 1 := by
    simp [RowEnv.stepLen, c1envHit]
  have hstepM : c1envMtd.stepLen = 1 := by
    simp [RowEnv.stepLen, c1envMtd]
  have h1 : targetIndex c1envHit 0 = 1 := by
    rw [targetIndex]
    norm_num [c1envHit]
  have h2 : hitIndex c1envHit 0 1 (1999 / 2000) = 1 := by
    rw [hitIndex, hstep]
    have hseg : c1envHit.segLen 0 1 = 1 := by simp [c1envHit]
    rw [hseg]
    have hq : clampQ (1999 / 2000 * 1) 0 1 = 1999 / 2000 := by
      rw [clampQ]
      norm_num
    rw [if_pos (by norm_num [kindaSmallNumber]), hq]
    have hfl : (⌊(1999 / 2000 : ℚ) / 1 + 1 / 1000⌋ : ℤ) = 1 := by
      norm_num [Int.floor_eq_iff]
    rw [hfl]
    rw [clampInt]
    norm_num
  refine ⟨h1, h2, ?_, ?_, ?_, ?_⟩
  · rw [hitIndexClaimed, hstep]
    have hseg : c1envHit.segLen 0 1 = 1 := by simp [c1envHit]
    rw [hseg]
    have hfl : (⌊(1999 / 2000 : ℚ) * 1 / 1⌋ : ℤ) = 0 := by
      norm_num [Int.floor_eq_iff]
    rw [hfl]
    rw [clampInt]
    norm_num
  · rw [h2, markSeg_flag c1envHit rfl]
    simp [c1envHit]
  · rw [targetIndex, hstepM]
    rw [if_pos (by norm_num [kindaSmallNumber, c1envMtd])]
    norm_num [c1envMtd, clampInt]
  · rw [targetIndexClaimed, hstepM]
    rw [if_pos (by norm_num [c1envMtd])]
    norm_num [c1envMtd]

/-- C1 as amended.  For every row of `Count ≥ 2` cells, each obstructed
segment iteration from `StartIndex < Count` behaves as follows:
`TargetIndex = min(StartIndex + clamp(⌊MaxTraceDistance/StepLen⌋, 1, Count−1), Count−1)`
when `MaxTraceDistance > 0` and `StepLen > KINDA_SMALL_NUMBER` (otherwise
the row's last index); on a probe obstructed at normalised fraction `t` the
computed `HitIndex = clamp(StartIndex + ⌊clamp(t·segLen, 0, segLen)/StepLen + 1e-3⌋,
StartIndex, TargetIndex)` (degenerating to `StartIndex` when `StepLen` is
not above `KINDA_SMALL_NUMBER`), with `StartIndex ≤ HitIndex ≤ TargetIndex`;
the iteration marks exactly the positions in `[StartIndex, HitIndex]`
(each subject to the per-position center-free veto) and continues from
`HitIndex + 1`; the walk terminates as soon as `StartIndex ≥ Count`. -/
theorem c1_amended_rowScan (e : RowEnv (ℕ → Bool))
    (hmark : e.mark = fun i m => Function.update m i true)
    (startI : ℕ) (m : ℕ → Bool) (t : ℚ)
    (_h2 : 2 ≤ e.count) (h : startI < e.count)
    (hp : e.probe startI (targetIndex e startI) = some t) :
    (0 < e.maxTraceDistance ∧ kindaSmallNumber < e.stepLen →
      targetIndex e startI =
        Min.min (startI + (clampInt ⌊e.maxTraceDistance / e.stepLen⌋ 1 ((e.count : ℤ) - 1)).toNat)
          (e.count - 1)) ∧
    (¬(0 < e.maxTraceDistance ∧ kindaSmallNumber < e.stepLen) →
      targetIndex e startI = e.count - 1) ∧
    startI ≤ hitIndex e startI (targetIndex e startI) t ∧
    hitIndex e startI (targetIndex e startI) t ≤ targetIndex e startI ∧
    (kindaSmallNumber < e.stepLen →
      hitIndex e startI (targetIndex e startI) t =
        (clampInt ((startI : ℤ) +
            ⌊clampQ (t * e.segLen startI (targetIndex e startI)) 0
                (e.segLen startI (targetIndex e startI)) / e.stepLen + 1 / 1000⌋)
          (startI : ℤ) ((targetIndex e startI : ℕ) : ℤ)).toNat) ∧
    scanRowFrom e m startI =
      scanRowFrom e (markSeg e startI (hitIndex e startI (targetIndex e startI) t) m)
        (hitIndex e startI (targetIndex e startI) t + 1) ∧
    (∀ n, markSeg e startI (hitIndex e startI (targetIndex e startI) t) m n =
      (m n || (decide (startI ≤ n) && decide (n ≤ hitIndex e startI (targetIndex e startI) t)
        && e.centerFree n))) ∧
    (∀ j, e.count ≤ j → scanRowFrom e m j = m) := by
  refine ⟨?_, ?_, hitIndex_ge e startI _ t (targetIndex_ge e startI h),
    hitIndex_le e startI _ t (targetIndex_ge e startI h), ?_,
    scanRowFrom_hit e m startI t h hp,
    fun n => markSeg_flag e hmark startI _ m n,
    fun j hj => scanRowFrom_stop e m j hj⟩
  · intro hcond
    rw [targetIndex, if_pos hcond]
  · intro hcond
    rw [targetIndex, if_neg hcond]
  · intro hcond
    rw [hitIndex, if_pos hcond]

section PreservationLemmas

theorem stepPreserves_refl (l : List Cell) : stepPreserves l l := ⟨rfl, fun _ => Or.inl rfl⟩

theorem stepPreserves_trans {l1 l2 l3 : List Cell}
    (h12 : stepPreserves l1 l2) (h23 : stepPreserves l2 l3) : stepPreserves l1 l3 := by
  refine ⟨h23.1.trans h12.1, fun i => ?_⟩
  rcases h23.2 i with h | h <;> rcases h12.2 i with h' | h'
  · exact Or.inl (h.trans h')
  · exact Or.inr (h.trans h')
  · rw [h, h']
    exact Or.inr rfl
  · rw [h, h']
    exact Or.inr rfl

theorem mono_of_stepPreserves {l l' : List Cell} (h : stepPreserves l l') (i : ℕ)
    (hv : (cellAt l i).visibilityMask ≠ 0) : (cellAt l' i).visibilityMask ≠ 0 := by
  rcases h.2 i with h' | h' <;> rw [h']
  · exact hv
  · simp

theorem setMask1_preserves (l : List Cell) (i : ℕ) : stepPreserves l (setMask1 l i) := by
  rw [setMask1]
  rcases hg : l[i]? with _ | c
  · exact stepPreserves_refl l
  · have hi : i < l.length := by
      by_contra hcon
      rw [List.getElem?_eq_none (by omega)] at hg
      exact Option.noConfusion hg
    refine ⟨by simp, fun j => ?_⟩
    by_cases hij : j = i
    · subst hij
      right
      rw [cellAt, cellAt, List.getElem?_set_self' , hg]
      rfl
    · left
      rw [cellAt, cellAt, List.getElem?_set_ne (fun hcon => hij hcon.symm)]

theorem foldl_mark_preserves (e : RowEnv (List Cell)) (g : ℕ → ℕ)
    (hmark : ∀ i st, e.mark i st = setMask1 st (g i)) (L : List ℕ) (st : List Cell) :
    stepPreserves st (L.foldl (fun acc i => if e.centerFree i then e.mark i acc else acc) st) := by
  induction L generalizing st with
  | nil => exact stepPreserves_refl st
  | cons a L ih =>
      rw [List.foldl_cons]
      by_cases hc : e.centerFree a
      · rw [if_pos hc, hmark]
        exact stepPreserves_trans (setMask1_preserves st (g a)) (ih _)
      · rw [if_neg hc]
        exact ih st

theorem markSeg_preserves (e : RowEnv (List Cell)) (g : ℕ → ℕ)
    (hmark : ∀ i st, e.mark i st = setMask1 st (g i)) (lo hi : ℕ) (st : List Cell) :
    stepPreserves st (markSeg e lo hi st) :=
  foldl_mark_preserves e g hmark _ st

theorem scanRowFrom_preserves (e : RowEnv (List Cell)) (g : ℕ → ℕ)
    (hmark : ∀ i st, e.mark i st = setMask1 st (g i)) (st : List Cell) (startI : ℕ) :
    stepPreserves st (scanRowFrom e st startI) := by
  induction st, startI using scanRowFrom.induct e with
  | case1 st startI h tI hp ih =>
      rw [scanRowFrom_clear e st startI h hp]
      exact stepPreserves_trans (markSeg_preserves e g hmark _ _ st) ih
  | case2 st startI h tI t hp hI ih =>
      have h1 : hI ≤ e.count - 1 :=
        le_trans (hitIndex_le e startI _ t (targetIndex_ge e startI h)) (targetIndex_le e startI)
      rw [scanRowFrom_hit e st startI t h hp]
      rw [Nat.min_eq_left (by omega : hI + 1 ≤ e.count)] at ih
      exact stepPreserves_trans (markSeg_preserves e g hmark _ _ st) ih
  | case3 st startI h =>
      rw [scanRowFrom_stop e st startI (by omega)]
      exact stepPreserves_refl st

theorem scanRow_preserves (e : RowEnv (List Cell)) (g : ℕ → ℕ)
    (hmark : ∀ i st, e.mark i st = setMask1 st (g i)) (st : List Cell) :
    stepPreserves st (scanRow e st) := by
  rw [scanRow]
  split
  · exact stepPreserves_refl st
  · split
    · split
      · rw [hmark]
        exact setMask1_preserves st (g 0)
      · exact stepPreserves_refl st
    · exact scanRowFrom_preserves e g hmark st 0

section LoopEquations

variable (w : World) (s : CState) (running : Bool) (budget : ℕ) (cur : MainCursor)

theorem mainLoop_stop (hc : ¬(running = true ∧ cur.rowsProcessed < budget ∧ cur.phase < 3)) :
    mainLoop w s running budget cur = cur := by
  rw [mainLoop, dif_neg hc]

theorem mainLoop_p0_adv (hc : running = true ∧ cur.rowsProcessed < budget ∧ cur.phase < 3)
    (hph : cur.phase = 0)
    (hg : s.gridCountY * s.gridCountZ ≤ 0 ∨ (s.gridCountY * s.gridCountZ : ℤ) ≤ (cur.rowIdx : ℤ)) :
    mainLoop w s running budget cur =
      mainLoop w s running budget { cur with phase := 1, rowIdx := 0 } := by
  conv_lhs => rw [mainLoop]
  rw [dif_pos hc, if_pos hph, if_pos hg]

theorem mainLoop_p0_scan (hc : running = true ∧ cur.rowsProcessed < budget ∧ cur.phase < 3)
    (hph : cur.phase = 0)
    (hg : ¬(s.gridCountY * s.gridCountZ ≤ 0 ∨ (s.gridCountY * s.gridCountZ : ℤ) ≤ (cur.rowIdx : ℤ))) :
    mainLoop w s running budget cur =
      mainLoop w s running budget
        { cur with
            boxes := scanRow
              (rowEnvX w s cur.boxes (cur.rowIdx % s.gridCountY.toNat)
                (cur.rowIdx / s.gridCountY.toNat)) cur.boxes,
            rowIdx := cur.rowIdx + 1, rowsProcessed := cur.rowsProcessed + 1 } := by
  conv_lhs => rw [mainLoop]
  rw [dif_pos hc, if_pos hph, if_neg hg]

theorem mainLoop_p1_adv (hc : running = true ∧ cur.rowsProcessed < budget ∧ cur.phase < 3)
    (hph : ¬cur.phase = 0) (hph1 : cur.phase = 1)
    (hg : s.gridCountX * s.gridCountZ ≤ 0 ∨ (s.gridCountX * s.gridCountZ : ℤ) ≤ (cur.rowIdx : ℤ)) :
    mainLoop w s running budget cur =
      mainLoop w s running budget { cur with phase := 2, rowIdx := 0 } := by
  conv_lhs => rw [mainLoop]
  rw [dif_pos hc, if_neg hph, if_pos hph1, if_pos hg]

theorem mainLoop_p1_scan (hc : running = true ∧ cur.rowsProcessed < budget ∧ cur.phase < 3)
    (hph : ¬cur.phase = 0) (hph1 : cur.phase = 1)
    (hg : ¬(s.gridCountX * s.gridCountZ ≤ 0 ∨ (s.gridCountX * s.gridCountZ : ℤ) ≤ (cur.rowIdx : ℤ))) :
    mainLoop w s running budget cur =
      mainLoop w s running budget
        { cur with
            boxes := scanRow
              (rowEnvY w s cur.boxes (cur.rowIdx % s.gridCountX.toNat)
                (cur.rowIdx / s.gridCountX.toNat)) cur.boxes,
            rowIdx := cur.rowIdx + 1, rowsProcessed := cur.rowsProcessed + 1 } := by
  conv_lhs => rw [mainLoop]
  rw [dif_pos hc, if_neg hph, if_pos hph1, if_neg hg]

theorem mainLoop_p2_adv (hc : running = true ∧ cur.rowsProcessed < budget ∧ cur.phase < 3)
    (hph : ¬cur.phase = 0) (hph1 : ¬cur.phase = 1)
    (hg : s.gridCountX * s.gridCountY ≤ 0 ∨ (s.gridCountX * s.gridCountY : ℤ) ≤ (cur.rowIdx : ℤ)) :
    mainLoop w s running budget cur = { cur with phase := 3 } := by
  conv_lhs => rw [mainLoop]
  rw [dif_pos hc, if_neg hph, if_neg hph1, if_pos hg]

theorem mainLoop_p2_scan (hc : running = true ∧ cur.rowsProcessed < budget ∧ cur.phase < 3)
    (hph : ¬cur.phase = 0) (hph1 : ¬cur.phase = 1)
    (hg : ¬(s.gridCountX * s.gridCountY ≤ 0 ∨ (s.gridCountX * s.gridCountY : ℤ) ≤ (cur.rowIdx : ℤ))) :
    mainLoop w s running budget cur =
      mainLoop w s running budget
        { cur with
            boxes := scanRow
              (rowEnvZ w s cur.boxes (cur.rowIdx % s.gridCountX.toNat)
                (cur.rowIdx / s.gridCountX.toNat)) cur.boxes,
            rowIdx := cur.rowIdx + 1, rowsProcessed := cur.rowsProcessed + 1 } := by
  conv_lhs => rw [mainLoop]
  rw [dif_pos hc, if_neg hph, if_neg hph1, if_neg hg]

end LoopEquations

section SubLoopEquations

variable (w : World) (s : CState) (running : Bool) (hidden : List ℕ) (budget : ℕ)
  (cur : SubCursor)

theorem subLoop_stop (hc : ¬(running = true ∧ cur.refined < budget ∧ cur.curHidden < hidden.length)) :
    subLoop w s running hidden budget cur = cur := by
  rw [subLoop, dif_neg hc]

theorem subLoop_skip (hc : running = true ∧ cur.refined < budget ∧ cur.curHidden < hidden.length)
    (hv : (cellAt cur.boxes (hidden.getD cur.curHidden 0)).visibilityMask ≠ 0) :
    subLoop w s running hidden budget cur =
      subLoop w s running hidden budget { cur with curHidden := cur.curHidden + 1 } := by
  conv_lhs => rw [subLoop]
  rw [dif_pos hc, if_pos hv]

theorem subLoop_refine (hc : running = true ∧ cur.refined < budget ∧ cur.curHidden < hidden.length)
    (hv : ¬(cellAt cur.boxes (hidden.getD cur.curHidden 0)).visibilityMask ≠ 0) :
    subLoop w s running hidden budget cur =
      subLoop w s running hidden budget
        { boxes :=
            if subScanAll w s (generateVoxelGridBoxes
                (linkedBoxGetAABB (cellAt cur.boxes (hidden.getD cur.curHidden 0)))
                s.subSampleCountX s.subSampleCountY s.subSampleCountZ) = true then
              setMask1 cur.boxes (hidden.getD cur.curHidden 0)
            else cur.boxes,
          curHidden := cur.curHidden + 1, refined := cur.refined + 1 } := by
  conv_lhs => rw [subLoop]
  rw [dif_pos hc, if_neg hv]

end SubLoopEquations

section RunPreservation

theorem mainLoop_preserves (w : World) (s : CState) (running : Bool) (budget : ℕ)
    (cur : MainCursor) :
    stepPreserves cur.boxes (mainLoop w s running budget cur).boxes := by
  induction cur using mainLoop.induct w s running budget with
  | case1 x hc hph hg ih =>
      rw [mainLoop_p0_adv w s running budget x hc hph hg]
      exact ih
  | case2 x hc hph hg zI yI ih =>
      rw [mainLoop_p0_scan w s running budget x hc hph hg]
      exact stepPreserves_trans
        (scanRow_preserves (rowEnvX w s x.boxes yI zI)
          (fun i => gridIndex s.gridCountX.toNat s.gridCountY.toNat i yI zI)
          (fun i st => rfl) x.boxes) ih
  | case3 x hc hph hph1 hg ih =>
      rw [mainLoop_p1_adv w s running budget x hc hph hph1 hg]
      exact ih
  | case4 x hc hph hph1 hg zI xI ih =>
      rw [mainLoop_p1_scan w s running budget x hc hph hph1 hg]
      exact stepPreserves_trans
        (scanRow_preserves (rowEnvY w s x.boxes xI zI)
          (fun i => gridIndex s.gridCountX.toNat s.gridCountY.toNat xI i zI)
          (fun i st => rfl) x.boxes) ih
  | case5 x hc hph hph1 hg =>
      rw [mainLoop_p2_adv w s running budget x hc hph hph1 hg]
      exact stepPreserves_refl x.boxes
  | case6 x hc hph hph1 hg yI xI ih =>
      rw [mainLoop_p2_scan w s running budget x hc hph hph1 hg]
      exact stepPreserves_trans
        (scanRow_preserves (rowEnvZ w s x.boxes xI yI)
          (fun i => gridIndex s.gridCountX.toNat s.gridCountY.toNat xI yI i)
          (fun i st => rfl) x.boxes) ih
  | case7 x hc =>
      rw [mainLoop_stop w s running budget x hc]
      exact stepPreserves_refl x.boxes

theorem subLoop_preserves (w : World) (s : CState) (running : Bool) (hidden : List ℕ)
    (budget : ℕ) (cur : SubCursor) :
    stepPreserves cur.boxes (subLoop w s running hidden budget cur).boxes := by
  induction cur using subLoop.induct w s running hidden budget with
  | case1 x hc bIdx hv ih =>
      rw [subLoop_skip w s running hidden budget x hc hv]
      exact ih
  | case2 x hc bIdx hv bAABB subV anyV hboxes ih =>
      rw [subLoop_refine w s running hidden budget x hc hv]
      refine stepPreserves_trans (?_ : stepPreserves x.boxes hboxes) ih
      show stepPreserves x.boxes (if _h : anyV = true then setMask1 x.boxes bIdx else x.boxes)
      split
      · exact setMask1_preserves x.boxes _
      · exact stepPreserves_refl x.boxes
  | case3 x hc =>
      rw [subLoop_stop w s running hidden budget x hc]
      exact stepPreserves_refl x.boxes

theorem processRowsStepSub_preserves (w : World) (budget : ℕ) (s : CState) :
    stepPreserves s.pendingBoxes (processRowsStepSub w budget s).pendingBoxes := by
  have h := subLoop_preserves w s s.bIsRunning s.hiddenBoxIndices budget
    ⟨s.pendingBoxes, s.currentHiddenIndex, 0⟩
  rw [processRowsStepSub]
  split
  · exact stepPreserves_refl _
  · simp only []
    split
    · exact h
    · exact h

theorem processRowsStep_preserves (w : World) (budget : ℕ) (s : CState) :
    stepPreserves s.pendingBoxes (processRowsStep w budget s).pendingBoxes := by
  have hmain := mainLoop_preserves w s s.bIsRunning budget
    ⟨s.pendingBoxes, s.currentPhase, s.currentPhaseRowIndex, 0⟩
  rw [processRowsStep]
  split
  · exact stepPreserves_refl _
  · split
    · exact processRowsStepSub_preserves w budget s
    · simp only []
      repeat' split
      all_goals first
        | exact hmain
        | exact stepPreserves_trans hmain (processRowsStepSub_preserves w _ _)

end RunPreservation

end PreservationLemmas

theorem plusPoint_isValid (b : FBox) (p : Vec3) : (FBox.plusPoint b p).isValid = true := by
  rw [FBox.plusPoint]
  split <;> rfl

theorem foldl_plusPoint_isValid (ps : List Vec3) (b : FBox) (hb : b.isValid = true) :
    (ps.foldl FBox.plusPoint b).isValid = true := by
  induction ps generalizing b with
  | nil => exact hb
  | cons q qs ih =>
      rw [List.foldl_cons]
      exact ih _ (plusPoint_isValid b q)

theorem makeBoxFromPoints_isValid (pts : List Vec3) :
    (makeBoxFromPoints pts).isValid = true ↔ pts ≠ [] := by
  cases pts with
  | nil => simp [makeBoxFromPoints, FBox.forceInitZero]
  | cons p ps =>
      simp only [makeBoxFromPoints, ne_eq, reduceCtorEq, not_false_iff, iff_true]
      exact foldl_plusPoint_isValid ps ⟨p, p, true⟩ rfl

/-- C2 counterexample: `StartAnalysis` invoked (world attached, sample
counts `1×1×1`) on a volume box holding exactly two populated corner points
that are *identical* — fewer than 2 distinct valid points, and a degenerate
zero-size bounding box.  The claim says the run does not start and no grid
is built; the code accepts the AABB (`FBox(P0,P0)` sets `IsValid = 1`),
builds a 1-cell grid and enters the running state. -/
theorem c2_counterexample :
    (startAnalysis trivWorld { baseState with volumeBox := c2box }).bIsRunning = true ∧
    (startAnalysis trivWorld { baseState with volumeBox := c2box }).pendingBoxes.length = 1 := by
  have hpts : ({ baseState with volumeBox := c2box } : CState).volumeBox.validPoints =
      [⟨0, 0, 0⟩, ⟨0, 0, 0⟩] := by
    simp [baseState, c2box, Cell.validPoints, cornerList]
  have haabb : linkedBoxGetAABB ({ baseState with volumeBox := c2box } : CState).volumeBox =
      ⟨⟨0, 0, 0⟩, ⟨0, 0, 0⟩, true⟩ := by
    rw [linkedBoxGetAABB, hpts]
    simp [makeBoxFromPoints, FBox.plusPoint]
  constructor
  · rw [startAnalysis, if_neg (by simp [trivWorld])]
    simp only [haabb]
    rfl
  · rw [startAnalysis, if_neg (by simp [trivWorld])]
    simp only [haabb]
    rw [if_neg (by simp)]
    simp only [List.length_map]
    rw [generateVoxelGridBoxes_length _ _ _ _ rfl (by norm_num [baseState]) (by norm_num [baseState])
      (by norm_num [baseState])]
    norm_num [baseState]

/-- C2 as amended: `StartAnalysis` aborts — leaving the whole controller
state unchanged (no warning-observable side effect is modelled; no grid is
built; a controller called from Idle remains Idle) — exactly when no world
is attached or when the volume box yields an invalid AABB, which happens
precisely when it has zero populated corner points.  With at least one
populated corner point (even a single one, or duplicates giving a
degenerate box), the AABB is valid: the grid is rebuilt (of size
`countX·countY·countZ` for positive sample counts) and the controller
enters the running state. -/
theorem c2_amended (w : World) (s : CState) :
    (w.present = false → startAnalysis w s = s) ∧
    (w.present = true → (linkedBoxGetAABB s.volumeBox).isValid = false →
      startAnalysis w s = s) ∧
    ((linkedBoxGetAABB s.volumeBox).isValid = true ↔ s.volumeBox.validPoints ≠ []) ∧
    (w.present = true → (linkedBoxGetAABB s.volumeBox).isValid = true →
      (startAnalysis w s).bIsRunning = true ∧
      (0 < s.sampleCountX → 0 < s.sampleCountY → 0 < s.sampleCountZ →
        (startAnalysis w s).pendingBoxes.length =
          s.sampleCountZ.toNat * (s.sampleCountY.toNat * s.sampleCountX.toNat))) := by
  refine ⟨?_, ?_, makeBoxFromPoints_isValid s.volumeBox.validPoints, ?_⟩
  · intro hw
    rw [startAnalysis, if_pos (by simp [hw])]
  · intro hw hv
    rw [startAnalysis, if_neg (by simp [hw])]
    simp only []
    rw [if_pos (by simp [hv])]
  · intro hw hv
    constructor
    · rw [startAnalysis, if_neg (by simp [hw])]
      simp only []
      rw [if_neg (by simp [hv])]
    · intro hx hy hz
      rw [startAnalysis, if_neg (by simp [hw])]
      simp only []
      rw [if_neg (by simp [hv])]
      simp only [List.length_map]
      exact generateVoxelGridBoxes_length _ _ _ _ hv hx hy hz

/-- Witness for C2's amended theorem at the concrete refuting input: the
duplicated-corner box has a valid AABB and `StartAnalysis` starts the run
with a 1×1×1 grid. -/
theorem c2_amended_witness :
    trivWorld.present = true ∧
    (linkedBoxGetAABB ({ baseState with volumeBox := c2box } : CState).volumeBox).isValid = true ∧
    (startAnalysis trivWorld { baseState with volumeBox := c2box }).bIsRunning = true := by
  have hv : (linkedBoxGetAABB ({ baseState with volumeBox := c2box } : CState).volumeBox).isValid
      = true := by
    rw [(c2_amended trivWorld { baseState with volumeBox := c2box }).2.2.1]
    simp [baseState, c2box, Cell.validPoints, cornerList]
  exact ⟨rfl, hv,
    ((c2_amended trivWorld { baseState with volumeBox := c2box }).2.2.2 rfl hv).1⟩

/-- C3: visibility is monotonic within a run.  Every per-tick step of the
run (`ProcessRowsStep`, covering both the main-pass row scans and the
sub-sampling refinement it dispatches to) leaves each cell either untouched
or promoted to visible — in particular a cell visible before the step is
visible after it, so no later step of the same run clears a visibility
flag.  Flags are reset to hidden only by `StartAnalysis` starting a new
analysis, whose freshly built grid is all-hidden. -/
theorem c3_monotonicVisibility (w : World) (budget : ℕ) (s : CState) :
    (processRowsStep w budget s).pendingBoxes.length = s.pendingBoxes.length ∧
    (∀ i, cellAt (processRowsStep w budget s).pendingBoxes i = cellAt s.pendingBoxes i ∨
      cellAt (processRowsStep w budget s).pendingBoxes i =
        { cellAt s.pendingBoxes i with visibilityMask := 1 }) ∧
    (∀ i, (cellAt s.pendingBoxes i).visibilityMask ≠ 0 →
      (cellAt (processRowsStep w budget s).pendingBoxes i).visibilityMask ≠ 0) ∧
    (w.present = true → (linkedBoxGetAABB s.volumeBox).isValid = true →
      ∀ c ∈ (startAnalysis w s).pendingBoxes, c.visibilityMask = 0) := by
  have h := processRowsStep_preserves w budget s
  refine ⟨h.1, h.2, fun i => mono_of_stepPreserves h i, ?_⟩
  intro hw hv c hc
  rw [startAnalysis, if_neg (by simp [hw])] at hc
  simp only [] at hc
  rw [if_neg (by simp [hv])] at hc
  simp only [List.mem_map] at hc
  obtain ⟨c', _, rfl⟩ := hc
  rfl

/-- Witness for C3 at a concrete input: a one-cell grid whose cell is
already visible stays visible across a step. -/
theorem c3_witness :
    (cellAt ({ baseState with pendingBoxes := [⟨fun _ => none, 1⟩] } : CState).pendingBoxes
      0).visibilityMask ≠ 0 ∧
    (cellAt (processRowsStep trivWorld 1
      { baseState with pendingBoxes := [⟨fun _ => none, 1⟩] }).pendingBoxes 0).visibilityMask ≠ 0 :=
  ⟨by simp [cellAt, baseState],
   (c3_monotonicVisibility trivWorld 1 _).2.2.1 0 (by simp [cellAt, baseState])⟩

theorem processRowsStepSub_counts (w : World) (budget : ℕ) (s : CState) :
    ((processRowsStepSub w budget s).visibleCount = s.visibleCount ∧
     (processRowsStepSub w budget s).hiddenCount = s.hiddenCount ∧
     (processRowsStepSub w budget s).analysisResults = s.analysisResults) ∨
    (processRowsStepSub w budget s).bIsRunning = false := by
  rw [processRowsStepSub]
  split
  · exact Or.inl ⟨rfl, rfl, rfl⟩
  · simp only []
    split
    · exact Or.inr rfl
    · exact Or.inl ⟨rfl, rfl, rfl⟩

theorem processRowsStep_counts (w : World) (budget : ℕ) (s : CState) :
    ((processRowsStep w budget s).visibleCount = s.visibleCount ∧
     (processRowsStep w budget s).hiddenCount = s.hiddenCount ∧
     (processRowsStep w budget s).analysisResults = s.analysisResults) ∨
    (processRowsStep w budget s).bIsRunning = false := by
  rw [processRowsStep]
  split
  · exact Or.inr rfl
  · split
    · exact processRowsStepSub_counts w budget s
    · simp only []
      repeat' split
      all_goals first
        | exact Or.inl ⟨rfl, rfl, rfl⟩
        | exact Or.inr rfl
        | exact processRowsStepSub_counts w _ _

/-- C10: between a successful `StartAnalysis` and the completion of the
run the public getters expose no partial progress.  A successful
`StartAnalysis` resets the visible/hidden counts to 0, the results array to
empty, and hence the percentage to 0; every `ProcessRowsStep` call that
leaves the run still running leaves all three fields untouched (they are
reassigned only in the finalisation step, which also stops the run); and
the percentage getter returns 0 whenever both counts are 0. -/
theorem c10_noPartialProgress (w : World) (budget : ℕ) (s : CState) :
    (w.present = true → (linkedBoxGetAABB s.volumeBox).isValid = true →
      getVisiblePointCount (startAnalysis w s) = 0 ∧
      getHiddenPointCount (startAnalysis w s) = 0 ∧
      getAnalysisResults (startAnalysis w s) = [] ∧
      getVisibilityPercentage (startAnalysis w s) = 0) ∧
    ((processRowsStep w budget s).bIsRunning = true →
      getVisiblePointCount (processRowsStep w budget s) = getVisiblePointCount s ∧
      getHiddenPointCount (processRowsStep w budget s) = getHiddenPointCount s ∧
      getAnalysisResults (processRowsStep w budget s) = getAnalysisResults s) ∧
    (∀ s' : CState, getVisiblePointCount s' = 0 → getHiddenPointCount s' = 0 →
      getVisibilityPercentage s' = 0) := by
  refine ⟨?_, ?_, ?_⟩
  · intro hw hv
    rw [startAnalysis, if_neg (by simp [hw])]
    simp only []
    rw [if_neg (by simp [hv])]
    refine ⟨rfl, rfl, rfl, ?_⟩
    rw [getVisibilityPercentage]
    norm_num
  · intro hrun
    rcases processRowsStep_counts w budget s with h | h
    · exact ⟨h.1, h.2.1, h.2.2⟩
    · rw [h] at hrun
      exact Bool.noConfusion hrun
  · intro s' h1 h2
    rw [getVisibilityPercentage]
    rw [getVisiblePointCount] at h1
    rw [getHiddenPointCount] at h2
    rw [h1, h2]
    norm_num

/-- Witness for C10 at a concrete input: a freshly started 2-cell run
stepped with a zero budget is still running and its getters still read
0/0/empty. -/
theorem c10_witness :
    (processRowsStep trivWorld 0
      { baseState with volumeBox := c2box, bIsRunning := true,
                       gridCountX := 2, gridCountY := 1, gridCountZ := 1,
                       pendingBoxes := [default, default] }).bIsRunning = true ∧
    getVisiblePointCount (processRowsStep trivWorld 0
      { baseState with volumeBox := c2box, bIsRunning := true,
                       gridCountX := 2, gridCountY := 1, gridCountZ := 1,
                       pendingBoxes := [default, default] }) = 0 := by
  have hrun : (processRowsStep trivWorld 0
      { baseState with volumeBox := c2box, bIsRunning := true,
                       gridCountX := 2, gridCountY := 1, gridCountZ := 1,
                       pendingBoxes := [default, default] }).bIsRunning = true := by
    rw [processRowsStep, if_neg (by simp [trivWorld]), if_neg (by simp [baseState])]
    simp only []
    rw [mainLoop_stop _ _ _ _ _ (by simp)]
    rw [if_neg (by simp [baseState]), if_neg (by simp [baseState])]
  refine ⟨hrun, ?_⟩
  have h := ((c10_noPartialProgress trivWorld 0
    { baseState with volumeBox := c2box, bIsRunning := true,
                     gridCountX := 2, gridCountY := 1, gridCountZ := 1,
                     pendingBoxes := [default, default] }).2.1 hrun).1
  rw [h]
  rfl

theorem setMask1_length (l : List Cell) (i : ℕ) : (setMask1 l i).length = l.length :=
  (setMask1_preserves l i).1

theorem cellAt_setMask1_self (l : List Cell) (i : ℕ) (h : i < l.length) :
    cellAt (setMask1 l i) i = { cellAt l i with visibilityMask := 1 } := by
  rw [setMask1]
  rcases hg : l[i]? with _ | c
  · rw [List.getElem?_eq_getElem h] at hg
    exact Option.noConfusion hg
  · rw [cellAt, cellAt, List.getElem?_set_self', hg]
    rfl

theorem cellAt_setMask1_ne (l : List Cell) (i j : ℕ) (h : j ≠ i) :
    cellAt (setMask1 l i) j = cellAt l j := by
  rw [setMask1]
  rcases hg : l[i]? with _ | c
  · rfl
  · rw [cellAt, cellAt, List.getElem?_set_ne (fun hc => h hc.symm)]

/-- C6: sub-sampling worklist processing.  (i) A parent cell whose
visibility flag is already set when its worklist entry is reached is
skipped outright — the loop advances the worklist index and performs no
other state change (no sub-grid, no probes for that entry).  (ii) A still
hidden parent has a finer sub-grid generated inside its AABB and scanned,
and its flag is set to visible iff at least one sub-sample scan reported a
visible sub-cell (`subScanAll`).  (iii) The sub-grid is discarded: the
iteration leaves the grid's length unchanged and touches no cell other
than the parent. -/
theorem c6_subSamplingRefinement (w : World) (s : CState) (running : Bool)
    (hidden : List ℕ) (budget : ℕ) (cur : SubCursor)
    (hc : running = true ∧ cur.refined < budget ∧ cur.curHidden < hidden.length) :
    ((cellAt cur.boxes (hidden.getD cur.curHidden 0)).visibilityMask ≠ 0 →
      subLoop w s running hidden budget cur =
        subLoop w s running hidden budget { cur with curHidden := cur.curHidden + 1 }) ∧
    ((cellAt cur.boxes (hidden.getD cur.curHidden 0)).visibilityMask = 0 →
      subLoop w s running hidden budget cur =
        subLoop w s running hidden budget
          { boxes :=
              if subScanAll w s (generateVoxelGridBoxes
                  (linkedBoxGetAABB (cellAt cur.boxes (hidden.getD cur.curHidden 0)))
                  s.subSampleCountX s.subSampleCountY s.subSampleCountZ) = true then
                setMask1 cur.boxes (hidden.getD cur.curHidden 0)
              else cur.boxes,
            curHidden := cur.curHidden + 1, refined := cur.refined + 1 } ∧
      (hidden.getD cur.curHidden 0 < cur.boxes.length →
        ((cellAt (if subScanAll w s (generateVoxelGridBoxes
              (linkedBoxGetAABB (cellAt cur.boxes (hidden.getD cur.curHidden 0)))
              s.subSampleCountX s.subSampleCountY s.subSampleCountZ) = true then
            setMask1 cur.boxes (hidden.getD cur.curHidden 0)
          else cur.boxes) (hidden.getD cur.curHidden 0)).visibilityMask ≠ 0 ↔
          subScanAll w s (generateVoxelGridBoxes
            (linkedBoxGetAABB (cellAt cur.boxes (hidden.getD cur.curHidden 0)))
            s.subSampleCountX s.subSampleCountY s.subSampleCountZ) = true)) ∧
      ((if subScanAll w s (generateVoxelGridBoxes
            (linkedBoxGetAABB (cellAt cur.boxes (hidden.getD cur.curHidden 0)))
            s.subSampleCountX s.subSampleCountY s.subSampleCountZ) = true then
          setMask1 cur.boxes (hidden.getD cur.curHidden 0)
        else cur.boxes).length = cur.boxes.length ∧
       ∀ j, j ≠ hidden.getD cur.curHidden 0 →
        cellAt (if subScanAll w s (generateVoxelGridBoxes
              (linkedBoxGetAABB (cellAt cur.boxes (hidden.getD cur.curHidden 0)))
              s.subSampleCountX s.subSampleCountY s.subSampleCountZ) = true then
            setMask1 cur.boxes (hidden.getD cur.curHidden 0)
          else cur.boxes) j = cellAt cur.boxes j)) := by
  constructor
  · exact fun hv => subLoop_skip w s running hidden budget cur hc hv
  · intro hv0
    refine ⟨subLoop_refine w s running hidden budget cur hc (by rw [hv0]; simp), ?_, ?_, ?_⟩
    · intro hidx
      split
      · rename_i hscan
        rw [cellAt_setMask1_self _ _ hidx]
        exact iff_of_true (by simp) hscan
      · rename_i hscan
        exact iff_of_false (fun h => h hv0) hscan
    · split
      · exact setMask1_length _ _
      · rfl
    · intro j hj
      split
      · exact cellAt_setMask1_ne _ _ _ hj
      · rfl

/-- `Visible + Hidden` of the final tally is the number of tallied cells. -/
theorem tally_fst_add_snd (l : List Cell) : (tally l).1 + (tally l).2 = l.length := by
  have key : ∀ (l : List Cell) (a b : ℕ),
      ((l.foldl (fun acc c =>
          if c.visibilityMask ≠ 0 then (acc.1 + 1, acc.2) else (acc.1, acc.2 + 1)) (a, b)).1 +
       (l.foldl (fun acc c =>
          if c.visibilityMask ≠ 0 then (acc.1 + 1, acc.2) else (acc.1, acc.2 + 1)) (a, b)).2) =
      a + b + l.length := by
    intro l
    induction l with
    | nil => intro a b; simp
    | cons c l ih =>
        intro a b
        rw [List.foldl_cons]
        split
        · rw [ih]
          simp only [List.length_cons]
          omega
        · rw [ih]
          simp only [List.length_cons]
          omega
  rw [tally, key]
  omega

theorem processRowsStepSub_finalized (w : World) (budget : ℕ) (s : CState)
    (hrun : s.bIsRunning = true) :
    (processRowsStepSub w budget s).bIsRunning = true ∨
    ((processRowsStepSub w budget s).visibleCount =
        (tally (processRowsStepSub w budget s).pendingBoxes).1 ∧
     (processRowsStepSub w budget s).hiddenCount =
        (tally (processRowsStepSub w budget s).pendingBoxes).2) := by
  rw [processRowsStepSub]
  split
  · exact Or.inl hrun
  · simp only []
    split
    · exact Or.inr ⟨rfl, rfl⟩
    · exact Or.inl hrun

theorem processRowsStep_finalized (w : World) (budget : ℕ) (s : CState)
    (hw : w.present = true) (hrun : s.bIsRunning = true) :
    (processRowsStep w budget s).bIsRunning = true ∨
    ((processRowsStep w budget s).visibleCount =
        (tally (processRowsStep w budget s).pendingBoxes).1 ∧
     (processRowsStep w budget s).hiddenCount =
        (tally (processRowsStep w budget s).pendingBoxes).2) := by
  rw [processRowsStep]
  rw [if_neg (by simp [hw])]
  split
  · exact processRowsStepSub_finalized w budget s hrun
  · simp only []
    repeat' split
    all_goals first
      | exact Or.inl hrun
      | exact Or.inl rfl
      | exact Or.inr ⟨rfl, rfl⟩
      | exact processRowsStepSub_finalized w _ _ rfl

/-- C7: after every completed run — any `ProcessRowsStep` call that takes
the controller from running to not running with a world attached, be it at
the end of the main pass or at the end of sub-sampling — the recomputed
counts satisfy `visibleCount + hiddenCount = number of grid cells` (each
cell lands in exactly one bucket of the final tally); the grid's size is
unchanged by the run, so with a grid built at `countX·countY·countZ` cells
the sum equals that product. -/
theorem c7_countsPartition (w : World) (budget : ℕ) (s : CState)
    (hw : w.present = true) (hrun : s.bIsRunning = true)
    (hdone : (processRowsStep w budget s).bIsRunning = false) :
    (processRowsStep w budget s).visibleCount + (processRowsStep w budget s).hiddenCount =
      (processRowsStep w budget s).pendingBoxes.length ∧
    (processRowsStep w budget s).pendingBoxes.length = s.pendingBoxes.length ∧
    (s.pendingBoxes.length = s.gridCountZ.toNat * (s.gridCountY.toNat * s.gridCountX.toNat) →
      (processRowsStep w budget s).visibleCount + (processRowsStep w budget s).hiddenCount =
        s.gridCountZ.toNat * (s.gridCountY.toNat * s.gridCountX.toNat)) := by
  rcases processRowsStep_finalized w budget s hw hrun with h | h
  · rw [h] at hdone
    exact Bool.noConfusion hdone
  · have hlen := (processRowsStep_preserves w budget s).1
    have hsum : (processRowsStep w budget s).visibleCount +
        (processRowsStep w budget s).hiddenCount =
        (processRowsStep w budget s).pendingBoxes.length := by
      rw [h.1, h.2]
      exact tally_fst_add_snd _
    exact ⟨hsum, hlen, fun hgrid => by rw [hsum, hlen, hgrid]⟩

/-- Witness for C6 at a concrete input: a one-entry worklist whose parent
cell is already visible is skipped — the loop state advances to the next
entry with the grid untouched. -/
theorem c6_witness :
    subLoop trivWorld baseState true [0] 1
      ⟨[{ points := fun _ => none, visibilityMask := 1 }], 0, 0⟩ =
    subLoop trivWorld baseState true [0] 1
      ⟨[{ points := fun _ => none, visibilityMask := 1 }], 1, 0⟩ :=
  (c6_subSamplingRefinement trivWorld baseState true [0] 1
    ⟨[{ points := fun _ => none, visibilityMask := 1 }], 0, 0⟩
    ⟨rfl, Nat.zero_lt_one, Nat.zero_lt_one⟩).1 (by decide)

/-- Witness for C7 at a concrete input: an empty-grid run at phase 3
finalises in one step and its counts satisfy `visible + hidden = cells`. -/
theorem c7_witness :
    (processRowsStep trivWorld 1
        { baseState with bIsRunning := true, currentPhase := 3 }).visibleCount +
      (processRowsStep trivWorld 1
        { baseState with bIsRunning := true, currentPhase := 3 }).hiddenCount =
      (processRowsStep trivWorld 1
        { baseState with bIsRunning := true, currentPhase := 3 }).pendingBoxes.length ∧
    (processRowsStep trivWorld 1
        { baseState with bIsRunning := true, currentPhase := 3 }).pendingBoxes.length =
      ({ baseState with bIsRunning := true, currentPhase := 3 } : CState).pendingBoxes.length ∧
    (({ baseState with bIsRunning := true, currentPhase := 3 } : CState).pendingBoxes.length =
        ({ baseState with bIsRunning := true, currentPhase := 3 } : CState).gridCountZ.toNat *
          (({ baseState with bIsRunning := true, currentPhase := 3 } : CState).gridCountY.toNat *
            ({ baseState with bIsRunning := true, currentPhase := 3 } : CState).gridCountX.toNat) →
      (processRowsStep trivWorld 1
          { baseState with bIsRunning := true, currentPhase := 3 }).visibleCount +
        (processRowsStep trivWorld 1
          { baseState with bIsRunning := true, currentPhase := 3 }).hiddenCount =
        ({ baseState with bIsRunning := true, currentPhase := 3 } : CState).gridCountZ.toNat *
          (({ baseState with bIsRunning := true, currentPhase := 3 } : CState).gridCountY.toNat *
            ({ baseState with bIsRunning := true, currentPhase := 3 } : CState).gridCountX.toNat)) := by
  have hdone : (processRowsStep trivWorld 1
      { baseState with bIsRunning := true, currentPhase := 3 }).bIsRunning = false := by
    rw [processRowsStep, if_neg (by simp [trivWorld]), if_neg (by simp [baseState])]
    simp only []
    rw [mainLoop_stop _ _ _ _ _ (by simp)]
    rw [if_pos (by decide), if_neg (by simp [baseState]), if_pos (by simp [baseState])]
    rfl
  exact c7_countsPartition trivWorld 1
    { baseState with bIsRunning := true, currentPhase := 3 } rfl rfl hdone

/-- Witness for C1's amended theorem at the concrete refuting input. -/
theorem c1_amended_witness :
    2 ≤ c1envHit.count ∧
    scanRowFrom c1envHit (fun _ => false) 0 =
      scanRowFrom c1envHit
        (markSeg c1envHit 0 (hitIndex c1envHit 0 (targetIndex c1envHit 0) (1999 / 2000))
          (fun _ => false))
        (hitIndex c1envHit 0 (targetIndex c1envHit 0) (1999 / 2000) + 1) :=
  ⟨by norm_num [c1envHit],
   ((((((c1_amended_rowScan c1envHit rfl 0 (fun _ => false) (1999 / 2000)
      (by norm_num [c1envHit]) (by norm_num [c1envHit]) rfl).2).2).2).2).2).1⟩

/-!
## C5: clear scene ⇒ full coverage
-/

theorem gridIndex_lt (nx ny nz x y z : ℕ) (hx : x < nx) (hy : y < ny) (hz : z < nz) :
    gridIndex nx ny x y z < nz * (ny * nx) := by
  have h1 : y * nx + x < ny * nx := by
    have h2 : (y + 1) * nx ≤ ny * nx := Nat.mul_le_mul_right nx (by omega)
    have h3 : y * nx + nx = (y + 1) * nx := by ring
    omega
  have h4 : (z + 1) * (ny * nx) ≤ nz * (ny * nx) := Nat.mul_le_mul_right _ (by omega)
  have h5 : z * (ny * nx) + ny * nx = (z + 1) * (ny * nx) := by ring
  rw [gridIndex]
  omega

theorem gridIndex_decompose (nx ny nz i : ℕ) (hx1 : 1 ≤ nx) (hy1 : 1 ≤ ny)
    (h : i < nz * (ny * nx)) :
    ∃ x y z, x < nx ∧ y < ny ∧ z < nz ∧ gridIndex nx ny x y z = i := by
  have hnpos : 0 < ny * nx := Nat.mul_pos (by omega) (by omega)
  refine ⟨i % (ny * nx) % nx, i % (ny * nx) / nx, i / (ny * nx), Nat.mod_lt _ (by omega), ?_, ?_, ?_⟩
  · rw [Nat.div_lt_iff_lt_mul (by omega : 0 < nx)]
    exact Nat.mod_lt _ hnpos
  · rw [Nat.div_lt_iff_lt_mul hnpos]
    exact h
  · have e1 : i % (ny * nx) / nx * nx + i % (ny * nx) % nx = i % (ny * nx) :=
      Nat.div_add_mod' _ nx
    have e2 : i / (ny * nx) * (ny * nx) + i % (ny * nx) = i := Nat.div_add_mod' i (ny * nx)
    rw [gridIndex]
    omega

theorem isCenterFree_of_disabled (w : World) (s : CState)
    (hcf : s.bUseCenterOverlapTest = false) (c : Vec3) : isCenterFree w s c = true := by
  rw [isCenterFree, if_pos (by rw [hcf]; simp : ¬s.bUseCenterOverlapTest = true)]

theorem foldl_mark_marks (e : RowEnv (List Cell)) (g : ℕ → ℕ)
    (hmark : ∀ i st, e.mark i st = setMask1 st (g i))
    (hfree : ∀ i, e.centerFree i = true)
    (L : List ℕ) (st : List Cell) (k : ℕ) (hk : k ∈ L) (hlen : g k < st.length) :
    (cellAt (L.foldl (fun acc i => if e.centerFree i then e.mark i acc else acc) st)
      (g k)).visibilityMask ≠ 0 := by
  induction L generalizing st with
  | nil => exact absurd hk (List.not_mem_nil k)
  | cons a L ih =>
      rw [List.foldl_cons, if_pos (hfree a), hmark]
      rcases List.mem_cons.mp hk with h | h
      · subst h
        have hmarked : (cellAt (setMask1 st (g k)) (g k)).visibilityMask ≠ 0 := by
          rw [cellAt_setMask1_self _ _ hlen]
          simp
        exact mono_of_stepPreserves (foldl_mark_preserves e g hmark L _) (g k) hmarked
      · exact ih _ h (by rw [setMask1_length]; exact hlen)

theorem markSeg_marks (e : RowEnv (List Cell)) (g : ℕ → ℕ)
    (hmark : ∀ i st, e.mark i st = setMask1 st (g i))
    (hfree : ∀ i, e.centerFree i = true)
    (lo hi k : ℕ) (hlo : lo ≤ k) (hhi : k ≤ hi) (st : List Cell) (hlen : g k < st.length) :
    (cellAt (markSeg e lo hi st) (g k)).visibilityMask ≠ 0 := by
  rw [markSeg]
  refine foldl_mark_marks e g hmark hfree _ st k ?_ hlen
  rw [List.mem_range'_1]
  omega

theorem scanRowFrom_clear_covers (e : RowEnv (List Cell)) (g : ℕ → ℕ)
    (hmark : ∀ i st, e.mark i st = setMask1 st (g i))
    (hfree : ∀ i, e.centerFree i = true)
    (hclear : ∀ i j, e.probe i j = none)
    (st : List Cell) (startI : ℕ) :
    ∀ k, startI ≤ k → k < e.count → g k < st.length →
      (cellAt (scanRowFrom e st startI) (g k)).visibilityMask ≠ 0 := by
  induction st, startI using scanRowFrom.induct e with
  | case1 st startI h tI hp ih =>
      intro k hk1 hk2 hlen
      rw [scanRowFrom_clear e st startI h hp]
      by_cases hcase : k ≤ tI
      · have hmarked : (cellAt (markSeg e startI tI st) (g k)).visibilityMask ≠ 0 :=
          markSeg_marks e g hmark hfree startI tI k hk1 hcase st hlen
        exact mono_of_stepPreserves (scanRowFrom_preserves e g hmark _ _) (g k) hmarked
      · refine ih k (by omega) hk2 ?_
        rw [(markSeg_preserves e g hmark startI tI st).1]
        exact hlen
  | case2 st startI h tI t hp hI ih =>
      rw [hclear] at hp
      exact Option.noConfusion hp
  | case3 st startI h =>
      intro k hk1 hk2 hlen
      exact absurd hk2 (by omega)

theorem scanRow_covers (e : RowEnv (List Cell)) (g : ℕ → ℕ)
    (hmark : ∀ i st, e.mark i st = setMask1 st (g i))
    (hfree : ∀ i, e.centerFree i = true)
    (hclear : ∀ i j, e.probe i j = none)
    (st : List Cell) (k : ℕ) (hk : k < e.count) (hlen : g k < st.length) :
    (cellAt (scanRow e st) (g k)).visibilityMask ≠ 0 := by
  rw [scanRow]
  split
  · rename_i h0
    exact absurd hk (by omega)
  · split
    · rename_i h0 h1
      have hk0 : k = 0 := by omega
      subst hk0
      rw [if_pos (hfree 0), hmark, cellAt_setMask1_self _ _ hlen]
      simp
    · exact scanRowFrom_clear_covers e g hmark hfree hclear st 0 k (Nat.zero_le k) hk hlen

theorem mainLoop_clear_covers (w : World) (s : CState) (budget : ℕ)
    (hclear : ∀ a b, w.lineTrace a b = none)
    (hcf : s.bUseCenterOverlapTest = false)
    (hx1 : 1 ≤ s.gridCountX.toNat) (hy1 : 1 ≤ s.gridCountY.toNat)
    (hz1 : 1 ≤ s.gridCountZ.toNat) :
    ∀ cur : MainCursor,
    cur.boxes.length = s.gridCountZ.toNat * (s.gridCountY.toNat * s.gridCountX.toNat) →
    (cur.phase = 0 → cur.rowIdx ≤ s.gridCountY.toNat * s.gridCountZ.toNat ∧
      cur.rowsProcessed + (s.gridCountY.toNat * s.gridCountZ.toNat - cur.rowIdx) +
        s.gridCountX.toNat * s.gridCountZ.toNat + s.gridCountX.toNat * s.gridCountY.toNat + 1 ≤
        budget) →
    (cur.phase = 1 → cur.rowIdx ≤ s.gridCountX.toNat * s.gridCountZ.toNat ∧
      cur.rowsProcessed + (s.gridCountX.toNat * s.gridCountZ.toNat - cur.rowIdx) +
        s.gridCountX.toNat * s.gridCountY.toNat + 1 ≤ budget) →
    (cur.phase = 2 → cur.rowIdx ≤ s.gridCountX.toNat * s.gridCountY.toNat ∧
      cur.rowsProcessed + (s.gridCountX.toNat * s.gridCountY.toNat - cur.rowIdx) + 1 ≤ budget) →
    cur.phase ≤ 3 →
    (cur.phase = 0 → ∀ x y z, x < s.gridCountX.toNat → y < s.gridCountY.toNat →
      z < s.gridCountZ.toNat → z * s.gridCountY.toNat + y < cur.rowIdx →
      (cellAt cur.boxes
        (gridIndex s.gridCountX.toNat s.gridCountY.toNat x y z)).visibilityMask ≠ 0) →
    (¬cur.phase = 0 → ∀ x y z, x < s.gridCountX.toNat → y < s.gridCountY.toNat →
      z < s.gridCountZ.toNat →
      (cellAt cur.boxes
        (gridIndex s.gridCountX.toNat s.gridCountY.toNat x y z)).visibilityMask ≠ 0) →
    (mainLoop w s true budget cur).phase = 3 ∧
    ∀ x y z, x < s.gridCountX.toNat → y < s.gridCountY.toNat → z < s.gridCountZ.toNat →
      (cellAt (mainLoop w s true budget cur).boxes
        (gridIndex s.gridCountX.toNat s.gridCountY.toNat x y z)).visibilityMask ≠ 0 := by
  have hxpos : 0 < s.gridCountX := by
    by_contra hcon
    push_neg at hcon
    rw [Int.toNat_of_nonpos hcon] at hx1
    omega
  have hypos : 0 < s.gridCountY := by
    by_contra hcon
    push_neg at hcon
    rw [Int.toNat_of_nonpos hcon] at hy1
    omega
  have hzpos : 0 < s.gridCountZ := by
    by_contra hcon
    push_neg at hcon
    rw [Int.toNat_of_nonpos hcon] at hz1
    omega
  have hXc : (s.gridCountX.toNat : ℤ) = s.gridCountX := Int.toNat_of_nonneg (le_of_lt hxpos)
  have hYc : (s.gridCountY.toNat : ℤ) = s.gridCountY := Int.toNat_of_nonneg (le_of_lt hypos)
  have hZc : (s.gridCountZ.toNat : ℤ) = s.gridCountZ := Int.toNat_of_nonneg (le_of_lt hzpos)
  intro cur
  induction cur using mainLoop.induct w s true budget with
  | case1 x hc hph hg ih =>
      intro hL hb0 hb1 hb2 hple hPI0 hPIn
      rw [mainLoop_p0_adv w s true budget x hc hph hg]
      have hYZ : 0 < s.gridCountY.toNat * s.gridCountZ.toNat :=
        Nat.mul_pos (by omega) (by omega)
      have hgge : s.gridCountY.toNat * s.gridCountZ.toNat ≤ x.rowIdx := by
        rw [← hYc, ← hZc, ← Nat.cast_mul] at hg
        rcases hg with h | h <;> omega
      have hall : ∀ x' y' z', x' < s.gridCountX.toNat → y' < s.gridCountY.toNat →
          z' < s.gridCountZ.toNat →
          (cellAt x.boxes
            (gridIndex s.gridCountX.toNat s.gridCountY.toNat x' y' z')).visibilityMask ≠ 0 := by
        intro x' y' z' hx' hy' hz'
        refine hPI0 hph x' y' z' hx' hy' hz' ?_
        have h1 : (z' + 1) * s.gridCountY.toNat ≤ s.gridCountZ.toNat * s.gridCountY.toNat :=
          Nat.mul_le_mul_right _ (by omega)
        have h2 : z' * s.gridCountY.toNat + s.gridCountY.toNat =
            (z' + 1) * s.gridCountY.toNat := by ring
        have h3 : s.gridCountZ.toNat * s.gridCountY.toNat =
            s.gridCountY.toNat * s.gridCountZ.toNat := Nat.mul_comm _ _
        omega
      refine ih hL (fun h => absurd h (by decide : ¬(1 : ℕ) = 0)) ?_
        (fun h => absurd h (by decide : ¬(1 : ℕ) = 2))
        (by decide : (1 : ℕ) ≤ 3) (fun h => absurd h (by decide : ¬(1 : ℕ) = 0))
        (fun _ => hall)
      intro _
      refine ⟨Nat.zero_le _, ?_⟩
      show x.rowsProcessed + (s.gridCountX.toNat * s.gridCountZ.toNat - 0) +
        s.gridCountX.toNat * s.gridCountY.toNat + 1 ≤ budget
      have h0 := hb0 hph
      omega
  | case2 x hc hph hg zI yI ih =>
      intro hL hb0 hb1 hb2 hple hPI0 hPIn
      rw [mainLoop_p0_scan w s true budget x hc hph hg]
      have hrowlt : x.rowIdx < s.gridCountY.toNat * s.gridCountZ.toNat := by
        rw [← hYc, ← hZc, ← Nat.cast_mul] at hg
        push_neg at hg
        have h2 := hg.2
        omega
      have hyIlt : x.rowIdx % s.gridCountY.toNat < s.gridCountY.toNat :=
        Nat.mod_lt _ (by omega)
      have hzIlt : x.rowIdx / s.gridCountY.toNat < s.gridCountZ.toNat := by
        rw [Nat.div_lt_iff_lt_mul (by omega : 0 < s.gridCountY.toNat)]
        have h3 : s.gridCountZ.toNat * s.gridCountY.toNat =
            s.gridCountY.toNat * s.gridCountZ.toNat := Nat.mul_comm _ _
        omega
      have hrowcov : ∀ k, k < s.gridCountX.toNat →
          (cellAt (scanRow (rowEnvX w s x.boxes (x.rowIdx % s.gridCountY.toNat)
              (x.rowIdx / s.gridCountY.toNat)) x.boxes)
            (gridIndex s.gridCountX.toNat s.gridCountY.toNat k (x.rowIdx % s.gridCountY.toNat)
              (x.rowIdx / s.gridCountY.toNat))).visibilityMask ≠ 0 := by
        intro k hk
        refine scanRow_covers (rowEnvX w s x.boxes (x.rowIdx % s.gridCountY.toNat)
            (x.rowIdx / s.gridCountY.toNat))
          (fun i => gridIndex s.gridCountX.toNat s.gridCountY.toNat i
            (x.rowIdx % s.gridCountY.toNat) (x.rowIdx / s.gridCountY.toNat))
          (fun i st => rfl) (fun i => isCenterFree_of_disabled w s hcf _)
          (fun i j => hclear _ _) x.boxes k hk ?_
        show gridIndex s.gridCountX.toNat s.gridCountY.toNat k (x.rowIdx % s.gridCountY.toNat)
          (x.rowIdx / s.gridCountY.toNat) < x.boxes.length
        rw [hL]
        exact gridIndex_lt _ _ _ _ _ _ hk hyIlt hzIlt
      have hpres := scanRow_preserves (rowEnvX w s x.boxes (x.rowIdx % s.gridCountY.toNat)
          (x.rowIdx / s.gridCountY.toNat))
        (fun i => gridIndex s.gridCountX.toNat s.gridCountY.toNat i
          (x.rowIdx % s.gridCountY.toNat) (x.rowIdx / s.gridCountY.toNat))
        (fun i st => rfl) x.boxes
      refine ih ?_ ?_ (fun h => absurd (hph.symm.trans h) (by decide))
        (fun h => absurd (hph.symm.trans h) (by decide)) hple ?_ (fun h => absurd hph h)
      · show (scanRow (rowEnvX w s x.boxes (x.rowIdx % s.gridCountY.toNat)
            (x.rowIdx / s.gridCountY.toNat)) x.boxes).length =
          s.gridCountZ.toNat * (s.gridCountY.toNat * s.gridCountX.toNat)
        rw [hpres.1]
        exact hL
      · intro _
        constructor
        · show x.rowIdx + 1 ≤ s.gridCountY.toNat * s.gridCountZ.toNat
          omega
        · show x.rowsProcessed + 1 +
            (s.gridCountY.toNat * s.gridCountZ.toNat - (x.rowIdx + 1)) +
            s.gridCountX.toNat * s.gridCountZ.toNat +
            s.gridCountX.toNat * s.gridCountY.toNat + 1 ≤ budget
          have h0 := hb0 hph
          omega
      · intro _ x' y' z' hx' hy' hz' hlt
        show (cellAt (scanRow (rowEnvX w s x.boxes (x.rowIdx % s.gridCountY.toNat)
            (x.rowIdx / s.gridCountY.toNat)) x.boxes)
          (gridIndex s.gridCountX.toNat s.gridCountY.toNat x' y' z')).visibilityMask ≠ 0
        by_cases hold : z' * s.gridCountY.toNat + y' < x.rowIdx
        · exact mono_of_stepPreserves hpres _ (hPI0 hph x' y' z' hx' hy' hz' hold)
        · have hsum : z' * s.gridCountY.toNat + y' = x.rowIdx := by
            have hlt' : z' * s.gridCountY.toNat + y' < x.rowIdx + 1 := hlt
            omega
          have hy'eq : x.rowIdx % s.gridCountY.toNat = y' := by
            have h5 : (y' + z' * s.gridCountY.toNat) % s.gridCountY.toNat =
                y' % s.gridCountY.toNat := Nat.add_mul_mod_self_right y' z' s.gridCountY.toNat
            rw [← hsum, Nat.add_comm, h5, Nat.mod_eq_of_lt hy']
          have hz'eq : x.rowIdx / s.gridCountY.toNat = z' := by
            have h6 : (y' + z' * s.gridCountY.toNat) / s.gridCountY.toNat =
                y' / s.gridCountY.toNat + z' :=
              Nat.add_mul_div_right y' z' (by omega : 0 < s.gridCountY.toNat)
            rw [← hsum, Nat.add_comm, h6, Nat.div_eq_of_lt hy']
            exact Nat.zero_add z'
          rw [← hy'eq, ← hz'eq]
          exact hrowcov x' hx'
  | case3 x hc hph hph1 hg ih =>
      intro hL hb0 hb1 hb2 hple hPI0 hPIn
      rw [mainLoop_p1_adv w s true budget x hc hph hph1 hg]
      have hall := hPIn hph
      refine ih hL (fun h => absurd h (by decide : ¬(2 : ℕ) = 0))
        (fun h => absurd h (by decide : ¬(2 : ℕ) = 1)) ?_
        (by decide : (2 : ℕ) ≤ 3) (fun h => absurd h (by decide : ¬(2 : ℕ) = 0))
        (fun _ => hall)
      intro _
      refine ⟨Nat.zero_le _, ?_⟩
      show x.rowsProcessed + (s.gridCountX.toNat * s.gridCountY.toNat - 0) + 1 ≤ budget
      have h1 := hb1 hph1
      omega
  | case4 x hc hph hph1 hg zI xI ih =>
      intro hL hb0 hb1 hb2 hple hPI0 hPIn
      rw [mainLoop_p1_scan w s true budget x hc hph hph1 hg]
      have hall := hPIn hph
      have hrowlt : x.rowIdx < s.gridCountX.toNat * s.gridCountZ.toNat := by
        rw [← hXc, ← hZc, ← Nat.cast_mul] at hg
        push_neg at hg
        have h2 := hg.2
        omega
      have hpres := scanRow_preserves (rowEnvY w s x.boxes (x.rowIdx % s.gridCountX.toNat)
          (x.rowIdx / s.gridCountX.toNat))
        (fun i => gridIndex s.gridCountX.toNat s.gridCountY.toNat
          (x.rowIdx % s.gridCountX.toNat) i (x.rowIdx / s.gridCountX.toNat))
        (fun i st => rfl) x.boxes
      refine ih ?_ (fun h => absurd h hph) ?_ (fun h => absurd (hph1.symm.trans h) (by decide))
        hple (fun h => absurd h hph)
        (fun _ x' y' z' hx' hy' hz' =>
          mono_of_stepPreserves hpres _ (hall x' y' z' hx' hy' hz'))
      · show (scanRow (rowEnvY w s x.boxes (x.rowIdx % s.gridCountX.toNat)
            (x.rowIdx / s.gridCountX.toNat)) x.boxes).length =
          s.gridCountZ.toNat * (s.gridCountY.toNat * s.gridCountX.toNat)
        rw [hpres.1]
        exact hL
      · intro _
        constructor
        · show x.rowIdx + 1 ≤ s.gridCountX.toNat * s.gridCountZ.toNat
          omega
        · show x.rowsProcessed + 1 +
            (s.gridCountX.toNat * s.gridCountZ.toNat - (x.rowIdx + 1)) +
            s.gridCountX.toNat * s.gridCountY.toNat + 1 ≤ budget
          have h1 := hb1 hph1
          omega
  | case5 x hc hph hph1 hg =>
      intro hL hb0 hb1 hb2 hple hPI0 hPIn
      rw [mainLoop_p2_adv w s true budget x hc hph hph1 hg]
      exact ⟨rfl, fun x' y' z' hx' hy' hz' => hPIn hph x' y' z' hx' hy' hz'⟩
  | case6 x hc hph hph1 hg yI xI ih =>
      intro hL hb0 hb1 hb2 hple hPI0 hPIn
      rw [mainLoop_p2_scan w s true budget x hc hph hph1 hg]
      have hall := hPIn hph
      have hph2 : x.phase = 2 := by
        have h3 := hc.2.2
        omega
      have hrowlt : x.rowIdx < s.gridCountX.toNat * s.gridCountY.toNat := by
        rw [← hXc, ← hYc, ← Nat.cast_mul] at hg
        push_neg at hg
        have h2 := hg.2
        omega
      have hpres := scanRow_preserves (rowEnvZ w s x.boxes (x.rowIdx % s.gridCountX.toNat)
          (x.rowIdx / s.gridCountX.toNat))
        (fun i => gridIndex s.gridCountX.toNat s.gridCountY.toNat
          (x.rowIdx % s.gridCountX.toNat) (x.rowIdx / s.gridCountX.toNat) i)
        (fun i st => rfl) x.boxes
      refine ih ?_ (fun h => absurd h hph) (fun h => absurd h hph1) ?_ hple
        (fun h => absurd h hph)
        (fun _ x' y' z' hx' hy' hz' =>
          mono_of_stepPreserves hpres _ (hall x' y' z' hx' hy' hz'))
      · show (scanRow (rowEnvZ w s x.boxes (x.rowIdx % s.gridCountX.toNat)
            (x.rowIdx / s.gridCountX.toNat)) x.boxes).length =
          s.gridCountZ.toNat * (s.gridCountY.toNat * s.gridCountX.toNat)
        rw [hpres.1]
        exact hL
      · intro _
        constructor
        · show x.rowIdx + 1 ≤ s.gridCountX.toNat * s.gridCountY.toNat
          omega
        · show x.rowsProcessed + 1 +
            (s.gridCountX.toNat * s.gridCountY.toNat - (x.rowIdx + 1)) + 1 ≤ budget
          have h2 := hb2 hph2
          omega
  | case7 x hc =>
      intro hL hb0 hb1 hb2 hple hPI0 hPIn
      rw [mainLoop_stop w s true budget x hc]
      have hph3 : x.phase = 3 := by
        by_contra hph
        have h3 : x.phase < 3 := by omega
        have hlt : x.rowsProcessed < budget := by
          rcases (by omega : x.phase = 0 ∨ x.phase = 1 ∨ x.phase = 2) with h | h | h
          · have := hb0 h
            omega
          · have := hb1 h
            omega
          · have := hb2 h
            omega
        exact hc ⟨rfl, hlt, h3⟩
      exact ⟨hph3, fun x' y' z' hx' hy' hz' => hPIn (by omega) x' y' z' hx' hy' hz'⟩

theorem hiddenIndicesOf_eq_nil (boxes : List Cell)
    (h : ∀ i, i < boxes.length → (cellAt boxes i).visibilityMask ≠ 0) :
    hiddenIndicesOf boxes = [] := by
  rw [hiddenIndicesOf, List.filter_eq_nil_iff]
  intro i hi
  rw [List.mem_range] at hi
  simp only [decide_eq_true_eq]
  exact h i hi

/-- C5: with an empty scene (every intersection probe reports no
obstruction) and `bUseCenterOverlapTest = false`, a running controller at
the start of its main pass given enough per-tick budget to complete all
three phases (`countY·countZ + countX·countZ + countX·countY` row scans
plus the closing phase transition) finishes the run in one step with every
cell of the grid marked visible: each phase covers every axis-aligned
row/column and the unobstructed branch of the row scan marks the full
`[StartIndex, TargetIndex]` span of every segment. -/
theorem c5_clearSceneFullVisibility (w : World) (budget : ℕ) (s : CState)
    (hw : w.present = true)
    (hclear : ∀ a b, w.lineTrace a b = none)
    (hcf : s.bUseCenterOverlapTest = false)
    (hx1 : 1 ≤ s.gridCountX.toNat) (hy1 : 1 ≤ s.gridCountY.toNat)
    (hz1 : 1 ≤ s.gridCountZ.toNat)
    (hrun : s.bIsRunning = true) (hsub : s.bIsSubSampling = false)
    (hph : s.currentPhase = 0) (hrow : s.currentPhaseRowIndex = 0)
    (hlen : s.pendingBoxes.length =
      s.gridCountZ.toNat * (s.gridCountY.toNat * s.gridCountX.toNat))
    (hbud : s.gridCountY.toNat * s.gridCountZ.toNat +
      s.gridCountX.toNat * s.gridCountZ.toNat +
      s.gridCountX.toNat * s.gridCountY.toNat + 1 ≤ budget) :
    (processRowsStep w budget s).bIsRunning = false ∧
    ∀ c ∈ (processRowsStep w budget s).pendingBoxes, c.visibilityMask ≠ 0 := by
  have hmain := mainLoop_clear_covers w s budget hclear hcf hx1 hy1 hz1
    ⟨s.pendingBoxes, 0, 0, 0⟩ hlen
    (fun _ => ⟨Nat.zero_le _, by
      show 0 + (s.gridCountY.toNat * s.gridCountZ.toNat - 0) +
        s.gridCountX.toNat * s.gridCountZ.toNat +
        s.gridCountX.toNat * s.gridCountY.toNat + 1 ≤ budget
      omega⟩)
    (fun h => absurd h (by decide : ¬(0 : ℕ) = 1))
    (fun h => absurd h (by decide : ¬(0 : ℕ) = 2))
    (by decide : (0 : ℕ) ≤ 3)
    (fun _ x' y' z' _ _ _ hlt => absurd hlt (Nat.not_lt_zero _))
    (fun h => absurd rfl h)
  obtain ⟨hph3, hcov⟩ := hmain
  have hlenM : (mainLoop w s true budget ⟨s.pendingBoxes, 0, 0, 0⟩).boxes.length =
      s.gridCountZ.toNat * (s.gridCountY.toNat * s.gridCountX.toNat) := by
    rw [(mainLoop_preserves w s true budget ⟨s.pendingBoxes, 0, 0, 0⟩).1]
    exact hlen
  have hcovflat : ∀ i, i < (mainLoop w s true budget ⟨s.pendingBoxes, 0, 0, 0⟩).boxes.length →
      (cellAt (mainLoop w s true budget ⟨s.pendingBoxes, 0, 0, 0⟩).boxes i).visibilityMask ≠
        0 := by
    intro i hi
    rw [hlenM] at hi
    rcases gridIndex_decompose s.gridCountX.toNat s.gridCountY.toNat s.gridCountZ.toNat i
      hx1 hy1 hi with ⟨x', y', z', hx', hy', hz', hgi⟩
    rw [← hgi]
    exact hcov x' y' z' hx' hy' hz'
  have hmem : ∀ c ∈ (mainLoop w s true budget ⟨s.pendingBoxes, 0, 0, 0⟩).boxes,
      c.visibilityMask ≠ 0 := by
    intro c hcmem
    rcases List.getElem_of_mem hcmem with ⟨i, hi, hget⟩
    have hflat := hcovflat i hi
    rw [cellAt, List.getElem?_eq_getElem hi] at hflat
    simp only [Option.getD_some] at hflat
    rw [← hget]
    exact hflat
  have hhid : hiddenIndicesOf (mainLoop w s true budget ⟨s.pendingBoxes, 0, 0, 0⟩).boxes =
      [] := hiddenIndicesOf_eq_nil _ hcovflat
  have hempty :
      ¬0 < (hiddenIndicesOf (mainLoop w s true budget ⟨s.pendingBoxes, 0, 0, 0⟩).boxes).length := by
    rw [hhid]
    simp
  have hnotsub : ¬s.bIsSubSampling = true := by
    rw [hsub]
    simp
  rw [processRowsStep, if_neg (by simp [hw]), if_neg (by simp [hsub]), hrun, hph, hrow]
  simp only []
  split
  · split
    · exact ⟨rfl, hmem⟩
    · exact ⟨rfl, hmem⟩
  · rename_i hcond
    exact absurd (le_of_eq hph3.symm) hcond

/-- Witness for C5 at a concrete input: a freshly started 1×1×1 run in the
empty concrete world finishes in one 4-row-budget step with its single
cell visible. -/
theorem c5_witness :
    (processRowsStep trivWorld 4
      { baseState with bIsRunning := true, gridCountX := 1, gridCountY := 1, gridCountZ := 1,
                       pendingBoxes := [default] }).bIsRunning = false ∧
    ∀ c ∈ (processRowsStep trivWorld 4
      { baseState with bIsRunning := true, gridCountX := 1, gridCountY := 1, gridCountZ := 1,
                       pendingBoxes := [default] }).pendingBoxes, c.visibilityMask ≠ 0 :=
  c5_clearSceneFullVisibility trivWorld 4
    { baseState with bIsRunning := true, gridCountX := 1, gridCountY := 1, gridCountZ := 1,
                     pendingBoxes := [default] }
    rfl (fun _ _ => rfl) rfl (by decide) (by decide) (by decide) rfl rfl rfl rfl
    (by decide) (by decide)

end PVolume
